import Mathlib

/-!
Verification of the proxy-harvest URI decoder and config synthesizers.

The Rust sources (`src/parser.rs`, `src/config/outbound.rs`,
`src/config/routing.rs`) are embedded shallowly: Rust `&str` values are
modelled as `List Char`, byte buffers as `List Nat`, fallible results as an
explicit result type with a dedicated constructor for panics, and
`serde_json::Value` as an inductive `Json` type.  Character-level operations
(`char::is_alphanumeric`, `to_lowercase`, `trim`) are modelled on their
ASCII fragments; every concrete input used in a theorem below is ASCII, and
theorems that quantify over arbitrary strings fed to these operations carry
an explicit ASCII-domain hypothesis (`asciiStr`), so the theorems hold of
the source semantics as well.  The restriction is essential and not a mere
convenience: outside ASCII, Rust `str::to_lowercase` is not even
character-wise (U+0130 lowercases to the two-character sequence
"i" + U+0307, and the combining mark U+0307 is not alphanumeric), so the
sanitizer genuinely loses idempotence on non-ASCII data.
-/

set_option autoImplicit false
set_option maxRecDepth 100000

namespace ProxyHarvest

/-- Rust `&str` contents, modelled as a list of unicode scalar values. -/
abbrev Str := List Char

/-- Embed a Lean string literal as a `Str`. -/
def cs (s : String) : Str := s.data

/-- ASCII fragment of Rust `char::is_alphanumeric` (`src/parser.rs:705`). -/
def rustIsAlnum (c : Char) : Bool :=
  (48 ≤ c.toNat && c.toNat ≤ 57) || (65 ≤ c.toNat && c.toNat ≤ 90) ||
    (97 ≤ c.toNat && c.toNat ≤ 122)

/-- The character filter of `sanitize_tag` (`src/parser.rs:703-706`):
alphanumerics plus the separators `- _ space @ |`. -/
def keepChar (c : Char) : Bool :=
  rustIsAlnum c || c = '-' || c = '_' || c = ' ' || c = '@' || c = '|'

/-- ASCII fragment of Rust `char::is_whitespace`, used by `str::trim`. -/
def rustIsWs (c : Char) : Bool :=
  c.toNat = 9 || c.toNat = 10 || c.toNat = 11 || c.toNat = 12 ||
    c.toNat = 13 || c.toNat = 32

/-- ASCII fragment of Rust `to_lowercase`, applied character-wise. -/
def rustToLower (c : Char) : Char :=
  if 65 ≤ c.toNat && c.toNat ≤ 90 then Char.ofNat (c.toNat + 32) else c

/-- Rust `str::to_lowercase` on the ASCII fragment. -/
def mapLower (s : Str) : Str := s.map rustToLower

/-- Rust `str::trim` (drops leading and trailing whitespace). -/
def trimStr (s : Str) : Str :=
  ((s.dropWhile rustIsWs).reverse.dropWhile rustIsWs).reverse

/-- Digit-accumulating worker for `natRepr`; the fuel argument only bounds
the recursion depth and `natRepr` always supplies enough of it. -/
def natReprAux : Nat → Nat → Str → Str
  | 0, _, acc => acc
  | fuel + 1, n, acc =>
    let acc' := Char.ofNat (48 + n % 10) :: acc
    if n < 10 then acc' else natReprAux fuel (n / 10) acc'

/-- Decimal representation of a nonnegative integer, as produced by Rust's
`Display` for `usize` (used in `format!("{}-{}", protocol, idx)`). -/
def natRepr (n : Nat) : Str := natReprAux (n + 1) n []

/-- Rust `str::starts_with` for string patterns. -/
def startsWithStr (s pfx : Str) : Bool := pfx.isPrefixOf s

/-- Rust `str::contains` for a string pattern (substring search). -/
def hasSub (s pat : Str) : Bool :=
  if pat.isPrefixOf s then true
  else match s with
    | [] => false
    | _ :: t => hasSub t pat

/-- Split a list at every occurrence of `sep` (Rust `str::split`). -/
def splitOnChar (sep : Char) : Str → List Str
  | [] => [[]]
  | c :: r =>
    match splitOnChar sep r with
    | [] => if c = sep then [[], []] else [[c]]
    | w :: ws => if c = sep then [] :: w :: ws else (c :: w) :: ws

/-- Split at the first occurrence of `sep`: Rust `str::split_once` /
`str::find` followed by slicing.  Returns `(before, after)`. -/
def breakAtFirst (sep : Char) : Str → Option (Str × Str)
  | [] => none
  | c :: r =>
    if c = sep then some ([], r)
    else (breakAtFirst sep r).map (fun p => (c :: p.1, p.2))

/-- Strip a literal prefix, returning the remainder (Rust
`str::trim_start_matches` at call sites where the prefix occurs once). -/
def dropPfx : Str → Str → Option Str
  | [], s => some s
  | _, [] => none
  | p :: ps, c :: rest => if c = p then dropPfx ps rest else none

/-- Lines 703-714 of `sanitize_tag`: filter, trim, fallback tag, space
replacement, lower-casing. -/
def sanitizeBase (tag protocol : Str) (idx : Nat) : Str :=
  let cleaned := trimStr (tag.filter keepChar)
  if cleaned = [] then protocol ++ '-' :: natRepr idx
  else mapLower (cleaned.map (fun c => if c = ' ' then '-' else c))

/-- Rust `sanitize_tag` (`src/parser.rs:701-722`). -/
def sanitizeTag (tag : Str) (protocol : Str) (idx : Nat) (isWarpFlag : Bool) : Str :=
  let baseTag := sanitizeBase tag protocol idx
  if isWarpFlag && !startsWithStr baseTag (cs "warp") then cs "warp-" ++ baseTag
  else baseTag

/-- Characters the sanitization pipeline leaves unchanged: they survive the
filter, are not spaces, and are fixed by lower-casing. -/
def tagSafeChar (c : Char) : Bool :=
  keepChar c && c ≠ ' ' && rustToLower c = c

/-- Strings of pipeline-fixed characters; all five protocol names passed to
`sanitize_tag` by the decoders satisfy this. -/
def tagSafe (p : Str) : Bool := p.all tagSafeChar

/-- ASCII strings: the domain on which the character-level definitions
above (`rustIsAlnum`, `rustIsWs`, `rustToLower`) coincide with the
Unicode-aware Rust originals.  Outside this domain `str::to_lowercase` is
not character-wise (U+0130 lowercases to "i" + U+0307, whose combining
mark the alphanumeric filter then removes), so string-quantified theorems
about the sanitizer are restricted to it. -/
def asciiStr (s : Str) : Bool := s.all (fun c => c.toNat < 128)

/-! ### Byte-level machinery: UTF-8, percent-decoding, base64 -/

/-- UTF-8 encoding of one unicode scalar value. -/
def utf8EncodeChar (c : Char) : List Nat :=
  let n := c.toNat
  if n < 0x80 then [n]
  else if n < 0x800 then [0xC0 + n / 64, 0x80 + n % 64]
  else if n < 0x10000 then [0xE0 + n / 4096, 0x80 + n / 64 % 64, 0x80 + n % 64]
  else [0xF0 + n / 262144, 0x80 + n / 4096 % 64, 0x80 + n / 64 % 64, 0x80 + n % 64]

/-- The UTF-8 bytes backing a Rust `&str`. -/
def strBytes (s : Str) : List Nat := (s.map utf8EncodeChar).flatten

/-- Is `b` a UTF-8 continuation byte? -/
def isCont (b : Nat) : Bool := 0x80 ≤ b && b < 0xC0

/-- Strict UTF-8 decoding (Rust `String::from_utf8`): rejects overlong
encodings, surrogates, values above `0x10FFFF`, bad continuation bytes and
truncated sequences. -/
def utf8Decode : List Nat → Option Str
  | [] => some []
  | b :: rest =>
    if b < 0x80 then (utf8Decode rest).map (Char.ofNat b :: ·)
    else if b < 0xC2 then none
    else if b < 0xE0 then
      match rest with
      | b1 :: r =>
        if isCont b1 then
          (utf8Decode r).map (Char.ofNat ((b - 0xC0) * 64 + (b1 - 0x80)) :: ·)
        else none
      | _ => none
    else if b < 0xF0 then
      match rest with
      | b1 :: b2 :: r =>
        let n := (b - 0xE0) * 4096 + (b1 - 0x80) * 64 + (b2 - 0x80)
        if isCont b1 ∧ isCont b2 ∧ 0x800 ≤ n ∧ ¬(0xD800 ≤ n ∧ n < 0xE000) then
          (utf8Decode r).map (Char.ofNat n :: ·)
        else none
      | _ => none
    else if b < 0xF5 then
      match rest with
      | b1 :: b2 :: b3 :: r =>
        let n := (b - 0xF0) * 262144 + (b1 - 0x80) * 4096 + (b2 - 0x80) * 64 +
          (b3 - 0x80)
        if isCont b1 ∧ isCont b2 ∧ isCont b3 ∧ 0x10000 ≤ n ∧ n ≤ 0x10FFFF then
          (utf8Decode r).map (Char.ofNat n :: ·)
        else none
      | _ => none
    else none

/-- Hex digit value of an ASCII byte. -/
def hexValB (b : Nat) : Option Nat :=
  if 48 ≤ b ∧ b ≤ 57 then some (b - 48)
  else if 65 ≤ b ∧ b ≤ 70 then some (b - 55)
  else if 97 ≤ b ∧ b ≤ 102 then some (b - 87)
  else none

/-- Percent-unescaping at byte level (crate `urlencoding`): `%` followed by
two hex digits becomes one byte; a malformed escape is copied verbatim and
scanning resumes at the next character. -/
def pctBytes : List Nat → List Nat
  | 37 :: h1 :: h2 :: r =>
    (match hexValB h1, hexValB h2 with
     | some a, some b => (16 * a + b) :: pctBytes r
     | _, _ => 37 :: pctBytes (h1 :: h2 :: r))
  | b :: r => b :: pctBytes r
  | [] => []

/-- Rust `urlencoding::decode`: percent-unescape the UTF-8 bytes, then re-validate
as UTF-8 (this is the step whose failure the parsers `unwrap` on tags). -/
def urlDecode (s : Str) : Option Str := utf8Decode (pctBytes (strBytes s))

/-- Symbol value in the standard base64 alphabet. -/
def b64ValStd (c : Char) : Option Nat :=
  let n := c.toNat
  if 65 ≤ n ∧ n ≤ 90 then some (n - 65)
  else if 97 ≤ n ∧ n ≤ 122 then some (n - 71)
  else if 48 ≤ n ∧ n ≤ 57 then some (n + 4)
  else if c = '+' then some 62
  else if c = '/' then some 63
  else none

/-- Symbol value in the URL-safe base64 alphabet. -/
def b64ValUrl (c : Char) : Option Nat :=
  let n := c.toNat
  if 65 ≤ n ∧ n ≤ 90 then some (n - 65)
  else if 97 ≤ n ∧ n ≤ 122 then some (n - 71)
  else if 48 ≤ n ∧ n ≤ 57 then some (n + 4)
  else if c = '-' then some 62
  else if c = '_' then some 63
  else none

/-- Decode a padding-free base64 symbol sequence, four symbols at a time,
rejecting non-canonical trailing bits (the `base64` crate's default). -/
def b64Quads (val : Char → Option Nat) : Str → Option (List Nat)
  | [] => some []
  | [c0, c1] =>
    (match val c0, val c1 with
     | some v0, some v1 =>
       if v1 % 16 = 0 then some [v0 * 4 + v1 / 16] else none
     | _, _ => none)
  | [c0, c1, c2] =>
    (match val c0, val c1, val c2 with
     | some v0, some v1, some v2 =>
       if v2 % 4 = 0 then some [v0 * 4 + v1 / 16, v1 % 16 * 16 + v2 / 4]
       else none
     | _, _, _ => none)
  | c0 :: c1 :: c2 :: c3 :: r =>
    (match val c0, val c1, val c2, val c3 with
     | some v0, some v1, some v2, some v3 =>
       (b64Quads val r).map
         (fun bs => (v0 * 4 + v1 / 16) :: (v1 % 16 * 16 + v2 / 4) ::
           (v2 % 4 * 64 + v3) :: bs)
     | _, _, _, _ => none)
  | [_] => none

/-- Rust `BASE64_STANDARD.decode`: canonical padding is mandatory. -/
def b64DecodeStd (s : Str) : Option (List Nat) :=
  if s.length % 4 = 0 then
    let pads := (s.reverse.takeWhile (· = '=')).length
    if pads ≤ 2 then b64Quads b64ValStd (s.take (s.length - pads)) else none
  else none

/-- Rust `BASE64_URL_SAFE.decode`: canonical padding is mandatory. -/
def b64DecodeUrl (s : Str) : Option (List Nat) :=
  if s.length % 4 = 0 then
    let pads := (s.reverse.takeWhile (· = '=')).length
    if pads ≤ 2 then b64Quads b64ValUrl (s.take (s.length - pads)) else none
  else none

/-- Rust `BASE64_URL_SAFE_NO_PAD.decode`: no padding characters allowed. -/
def b64DecodeUrlNoPad (s : Str) : Option (List Nat) :=
  b64Quads b64ValUrl s

/-! ### Data model (`src/parser.rs:9-146`) -/

/-- Rust `TlsSettings` (`src/parser.rs:75-85`). -/
structure TlsSettings where
  server_name : Str
  fingerprint : Str
  alpn : Option (List Str)
  allow_insecure : Bool
  public_key : Option Str
  short_id : Option Str
  spider_x : Option Str
deriving DecidableEq, Repr

/-- Rust `NetworkSettings` (`src/parser.rs:87-99`). -/
inductive NetworkSettings where
  | webSocket (path : Str) (host : Str)
  | grpc (service_name : Str) (authority : Str)
  | tcp (header_type : Str)
deriving DecidableEq, Repr

/-- Rust `ServerConfig` (`src/parser.rs:9-73`); `u16` ports are represented as
`Nat` values below `2 ^ 16` (guaranteed by the parsers). -/
inductive ServerConfig where
  | shadowsocks (tag address : Str) (port : Nat) (method password : Str)
  | vless (tag address : Str) (port : Nat)
      (id encryption flow network security : Str)
      (tls_settings : Option TlsSettings)
      (network_settings : Option NetworkSettings)
  | vmess (tag address : Str) (port : Nat) (id : Str) (alter_id : Nat)
      (security network : Str)
      (network_settings : Option NetworkSettings)
      (tls_settings : Option TlsSettings) (allow_insecure : Bool)
  | trojan (tag address : Str) (port : Nat) (password network security : Str)
      (tls_settings : Option TlsSettings)
      (network_settings : Option NetworkSettings) (allow_insecure : Bool)
  | hysteria2 (tag address : Str) (port : Nat) (password server_name : Str)
      (allow_insecure : Bool) (obfs obfs_password : Option Str)
deriving DecidableEq, Repr

/-- Rust `ServerConfig::tag` (`src/parser.rs:123-131`). -/
def ServerConfig.tag : ServerConfig → Str
  | .shadowsocks tag _ _ _ _ => tag
  | .vless tag _ _ _ _ _ _ _ _ _ => tag
  | .vmess tag _ _ _ _ _ _ _ _ _ => tag
  | .trojan tag _ _ _ _ _ _ _ _ => tag
  | .hysteria2 tag _ _ _ _ _ _ _ => tag

/-- Rust `ServerConfig::is_warp` (`src/parser.rs:133-135`). -/
def ServerConfig.isWarp (s : ServerConfig) : Bool :=
  hasSub (mapLower s.tag) (cs "warp")

/-- The address test of `ServerConfig::is_cloudflare`
(`src/parser.rs:140-141`). -/
def cfAddr (address : Str) : Bool :=
  let addr := mapLower address
  startsWithStr addr (cs "104.") || hasSub addr (cs "cloudflare") ||
    hasSub addr (cs "cdn")

/-- Rust `ServerConfig::is_cloudflare` (`src/parser.rs:137-145`). -/
def ServerConfig.isCloudflare : ServerConfig → Bool
  | .shadowsocks _ _ _ _ _ => false
  | .vless _ address _ _ _ _ _ _ _ _ => cfAddr address
  | .vmess _ address _ _ _ _ _ _ _ _ => cfAddr address
  | .trojan _ address _ _ _ _ _ _ _ => cfAddr address
  | .hysteria2 _ address _ _ _ _ _ _ => cfAddr address

/-! ### Result model

Rust's `anyhow::Result` plus the possibility of a panic.  The decoders bail
with `anyhow` string errors; we classify them with the taxonomy of the spec.
`panic` models an `unwrap()` of a failed operation — it aborts the whole
batch rather than being caught by `parse_servers`. -/

inductive PErr where
  | unsupportedProtocol
  | malformedUri
  | invalidPort
  | base64Error
  | utf8Error
  | invalidCreds
  | invalidJson
  | invalidNumeric
deriving DecidableEq, Repr

inductive PRes (α : Type) where
  | ok (a : α)
  | err (e : PErr)
  | panic
deriving DecidableEq, Repr

def PRes.bind {α β : Type} : PRes α → (α → PRes β) → PRes β
  | .ok a, f => f a
  | .err e, _ => .err e
  | .panic, _ => .panic

/-- Lift an `Option` whose `none` the Rust code propagates with `?`. -/
def ofOpt {α : Type} (e : PErr) : Option α → PRes α
  | some a => .ok a
  | none => .err e

/-- Lift an `Option` whose `none` the Rust code `unwrap`s (a panic). -/
def ofOptPanic {α : Type} : Option α → PRes α
  | some a => .ok a
  | none => .panic

/-! ### Shared parsing helpers (`src/parser.rs:572-699`) -/

/-- Rust `HashMap::insert`: overwrite the existing binding or add a new one. -/
def insertKV (m : List (Str × Str)) (k v : Str) : List (Str × Str) :=
  if m.any (fun p => p.1 = k) then
    m.map (fun p => if p.1 = k then (k, v) else p)
  else m ++ [(k, v)]

/-- Rust `HashMap::get`. -/
def lookupKV (m : List (Str × Str)) (k : Str) : Option Str :=
  match m with
  | [] => none
  | p :: r => if p.1 = k then some p.2 else lookupKV r k

/-- Worker for `parseQuery`. -/
def parseQueryAux : List Str → List (Str × Str) → PRes (List (Str × Str))
  | [], m => .ok m
  | pair :: rest, m =>
    match breakAtFirst '=' pair with
    | none => parseQueryAux rest m
    | some (k, v) =>
      match urlDecode v with
      | some dv => parseQueryAux rest (insertKV m k dv)
      | none => .err .utf8Error

/-- Rust `parse_query` (`src/parser.rs:572-581`): split on `&`, keep `k=v` pairs,
percent-decode values (`?` on failure), insert into a map. -/
def parseQuery (query : Str) : PRes (List (Str × Str)) :=
  parseQueryAux (splitOnChar '&' query) []

/-- Rust `parse_tls_settings` (`src/parser.rs:583-632`); the Rust function returns
`Result` but has no failure path. -/
def parseTlsSettings (params : List (Str × Str)) (security : Str) : TlsSettings :=
  { server_name := (lookupKV params (cs "sni")).getD []
    fingerprint := (lookupKV params (cs "fp")).getD (cs "chrome")
    alpn := (lookupKV params (cs "alpn")).map (fun s =>
      ((splitOnChar ',' s).map trimStr).filter (· ≠ []))
    allow_insecure :=
      match lookupKV params (cs "allowInsecure") with
      | some v => v = cs "1" || v = cs "true"
      | none => true
    public_key :=
      if security = cs "reality" then lookupKV params (cs "pbk") else none
    short_id :=
      if security = cs "reality" then lookupKV params (cs "sid") else none
    spider_x :=
      if security = cs "reality" then
        (lookupKV params (cs "spx")).or (lookupKV params (cs "path"))
      else none }

/-- Rust `parse_network_settings` (`src/parser.rs:634-673`); again infallible. -/
def parseNetworkSettings (params : List (Str × Str)) (network : Str) :
    Option NetworkSettings :=
  if network = cs "ws" then
    some (.webSocket ((lookupKV params (cs "path")).getD (cs "/"))
      ((lookupKV params (cs "host")).getD []))
  else if network = cs "grpc" then
    some (.grpc ((lookupKV params (cs "serviceName")).getD [])
      ((lookupKV params (cs "authority")).getD []))
  else if network = cs "tcp" then
    some (.tcp ((lookupKV params (cs "headerType")).getD (cs "none")))
  else none

/-- Rust `check_is_warp` (`src/parser.rs:675-699`). -/
def checkIsWarp (tag : Str) (params : List (Str × Str)) : Bool :=
  if hasSub (mapLower tag) (cs "warp") then true
  else if (match lookupKV params (cs "path") with
           | some path =>
             hasSub (mapLower path) (cs "warp") ||
               hasSub (mapLower path) (cs "cloudflare")
           | none => false) then true
  else
    match lookupKV params (cs "host") with
    | some host => hasSub (mapLower host) (cs "warp")
    | none => false

/-- Rust `str::parse::<u16>`: optional `+` sign, at least one ASCII digit,
value below `2 ^ 16`. -/
def isDigitB (c : Char) : Bool := 48 ≤ c.toNat && c.toNat ≤ 57

def parseU16 (s : Str) : Option Nat :=
  let digits := match s with | '+' :: r => r | _ => s
  if digits ≠ [] ∧ digits.all isDigitB then
    let v := digits.foldl (fun a c => a * 10 + (c.toNat - 48)) 0
    if v ≤ 65535 then some v else none
  else none

/-- Rust `str::trim_start_matches` (repeatedly strips the pattern); the fuel
argument only bounds the recursion and is always sufficient. -/
def trimStartAux (pat : Str) : Nat → Str → Str
  | 0, s => s
  | f + 1, s =>
    match dropPfx pat s with
    | some r => trimStartAux pat f r
    | none => s

def trimStartMatches (pat s : Str) : Str := trimStartAux pat (s.length + 1) s

/-! ### The shadowsocks decoder (`src/parser.rs:185-264`) -/

/-- Lines 244-252: the `method:password` split of the decoded payload.
`splitn(2, ':')` yields the part before the first colon and everything after
it; the inner length check can never fire. -/
def ssCreds (decodedStr : Str) : PRes (Str × Str) :=
  if decodedStr.contains ':' then
    match breakAtFirst ':' decodedStr with
    | some (m, p) => .ok (m, p)
    | none => .err .invalidCreds
  else .err .invalidCreds

/-- Lines 229-239: alphabet selection and re-padding for the credential
blob. -/
def ssB64 (encodedPart : Str) : Option (List Nat) :=
  if encodedPart.contains '-' || encodedPart.contains '_' then
    b64DecodeUrlNoPad encodedPart
  else
    let padded :=
      if encodedPart.length % 4 = 2 then encodedPart ++ cs "=="
      else if encodedPart.length % 4 = 3 then encodedPart ++ cs "="
      else encodedPart
    b64DecodeStd padded

/-- Rust `parse_shadowsocks` (`src/parser.rs:185-264`), in the source's
evaluation order: `@`-split, host:port, tag (a panic on a tag fragment that
percent-decodes to invalid UTF-8 — the `unwrap` at line 223), base64,
UTF-8, credentials, sanitization. -/
def parseShadowsocks (url : Str) (idx : Nat) : PRes ServerConfig :=
  if startsWithStr url (cs "ss://") then
    let urlPart := trimStartMatches (cs "ss://") url
    match breakAtFirst '@' urlPart with
    | none => .err .malformedUri
    | some (encodedPart, restPart) =>
      let hpTag : Str × Str :=
        match breakAtFirst '#' restPart with
        | some (beforeHash, tagPart) =>
          (match breakAtFirst '?' beforeHash with
           | some (hp, _) => (hp, tagPart)
           | none => (beforeHash, tagPart))
        | none =>
          (match breakAtFirst '?' restPart with
           | some (hp, _) => (hp, [])
           | none => (restPart, []))
      match splitOnChar ':' hpTag.1 with
      | [host, portS] =>
        (ofOpt .invalidPort (parseU16 portS)).bind fun port =>
        (if hpTag.2 ≠ [] then ofOptPanic (urlDecode hpTag.2)
         else .ok (cs "ss-" ++ natRepr idx)).bind fun tag =>
        (ofOpt .base64Error (ssB64 encodedPart)).bind fun decoded =>
        (ofOpt .utf8Error (utf8Decode decoded)).bind fun decodedStr =>
        (ssCreds decodedStr).bind fun mp =>
        .ok (.shadowsocks (sanitizeTag tag (cs "ss") idx false) host port
          mp.1 mp.2)
      | _ => .err .malformedUri
  else .err .malformedUri

/-! ### The regex grammars of vless / trojan / hysteria2 -/

/-- Capture structure of `^scheme([^@]+)@([^:]+):(\d+)\?([^#]+)(?:#(.*))?$`
(`src/parser.rs:268,435,516`).  The match is deterministic: each negated
character class ends at the first occurrence of its terminator, `\d+` is a
maximal digit run that must be followed by `?`, and `(.*)` cannot contain a
newline. -/
def mainUriMatch (scheme url : Str) :
    Option (Str × Str × Str × Str × Option Str) :=
  match dropPfx scheme url with
  | none => none
  | some r1 =>
    match breakAtFirst '@' r1 with
    | none => none
    | some (user, r2) =>
      if user = [] then none
      else
        match breakAtFirst ':' r2 with
        | none => none
        | some (host, r3) =>
          if host = [] then none
          else
            let ds := r3.takeWhile isDigitB
            let r4 := r3.dropWhile isDigitB
            if ds = [] then none
            else
              match r4 with
              | '?' :: r5 =>
                (match breakAtFirst '#' r5 with
                 | none => if r5 = [] then none else some (user, host, ds, r5, none)
                 | some (q, f) =>
                   if q = [] then none
                   else if f.contains '\n' then none
                   else some (user, host, ds, q, some f))
              | _ => none

/-- The body of `parse_vless` after the regex match
(`src/parser.rs:271-329`). -/
def vlessFromParts (id host portS query : Str) (frag : Option Str)
    (idx : Nat) : PRes ServerConfig :=
    (ofOpt .invalidPort (parseU16 portS)).bind fun port =>
    (match frag with
     | some m => ofOptPanic (urlDecode m)
     | none => .ok (cs "vless-" ++ natRepr idx)).bind fun tag =>
    (parseQuery query).bind fun params =>
    let encryption := (lookupKV params (cs "encryption")).getD (cs "none")
    let flow := (lookupKV params (cs "flow")).getD []
    let network := (lookupKV params (cs "type")).getD (cs "tcp")
    let security := (lookupKV params (cs "security")).getD (cs "none")
    let tls :=
      if security = cs "tls" || security = cs "reality" then
        some (parseTlsSettings params security)
      else none
    let ns := parseNetworkSettings params network
    let w := checkIsWarp tag params
    .ok (.vless (sanitizeTag tag (cs "vless") idx w) host port id encryption
      flow network security tls ns)

/-- Rust `parse_vless` (`src/parser.rs:266-330`). -/
def parseVless (url : Str) (idx : Nat) : PRes ServerConfig :=
  match mainUriMatch (cs "vless://") url with
  | none => .err .malformedUri
  | some (id, host, portS, query, frag) =>
    vlessFromParts id host portS query frag idx

/-- The body of `parse_trojan` after the regex match
(`src/parser.rs:438-511`). -/
def trojanFromParts (pwEnc host portS query : Str) (frag : Option Str)
    (idx : Nat) : PRes ServerConfig :=
    (ofOpt .invalidPort (parseU16 portS)).bind fun port =>
    (match frag with
     | some m => ofOptPanic (urlDecode m)
     | none => .ok (cs "trojan-" ++ natRepr idx)).bind fun tag =>
    (ofOpt .utf8Error (urlDecode pwEnc)).bind fun password =>
    (parseQuery query).bind fun params =>
    let network := (lookupKV params (cs "type")).getD (cs "tcp")
    let security := (lookupKV params (cs "security")).getD (cs "tls")
    let allowInsec :=
      match (lookupKV params (cs "insecure")).or
          (lookupKV params (cs "allowInsecure")) with
      | some v => v = cs "1" || v = cs "true"
      | none => false
    let tls :=
      if security = cs "tls" then
        some
          { server_name := (lookupKV params (cs "sni")).getD []
            fingerprint := (lookupKV params (cs "fp")).getD (cs "chrome")
            alpn := (lookupKV params (cs "alpn")).map (fun s =>
              ((splitOnChar ',' s).map trimStr).filter (· ≠ []))
            allow_insecure := allowInsec
            public_key := none
            short_id := none
            spider_x := none : TlsSettings }
      else none
    let ns := parseNetworkSettings params network
    .ok (.trojan (sanitizeTag tag (cs "trojan") idx false) host port password
      network security tls ns allowInsec)

/-- Rust `parse_trojan` (`src/parser.rs:433-512`). -/
def parseTrojan (url : Str) (idx : Nat) : PRes ServerConfig :=
  match mainUriMatch (cs "trojan://") url with
  | none => .err .malformedUri
  | some (pwEnc, host, portS, query, frag) =>
    trojanFromParts pwEnc host portS query frag idx

/-- The query-less fallback grammar of `parse_hysteria2`
(`^hysteria2://([^@]+)@([^:]+):(\d+)(?:#(.*))?$`, `src/parser.rs:521`). -/
def hy2SimpleMatch (url : Str) : Option (Str × Str × Str × Option Str) :=
  match dropPfx (cs "hysteria2://") url with
  | none => none
  | some r1 =>
    match breakAtFirst '@' r1 with
    | none => none
    | some (user, r2) =>
      if user = [] then none
      else
        match breakAtFirst ':' r2 with
        | none => none
        | some (host, r3) =>
          if host = [] then none
          else
            let ds := r3.takeWhile isDigitB
            let r4 := r3.dropWhile isDigitB
            if ds = [] then none
            else
              match r4 with
              | [] => some (user, host, ds, none)
              | '#' :: f =>
                if f.contains '\n' then none else some (user, host, ds, some f)
              | _ => none

/-- The capture tuple `parse_hysteria2` works with (`src/parser.rs:516-524`):
for the query-bearing grammar group 4 is the query and group 5 the fragment;
for the query-less fallback grammar group 4 is the fragment (!) and group 5
is absent. -/
def hy2Caps (url : Str) : Option (Str × Str × Str × Option Str × Option Str) :=
  match mainUriMatch (cs "hysteria2://") url with
  | some (u, h, p, q, f) => some (u, h, p, some q, f)
  | none =>
    match hy2SimpleMatch url with
    | some (u, h, p, f) => some (u, h, p, f, none)
    | none => none

/-- Rust `parse_hysteria2` (`src/parser.rs:514-570`): note that the fragment of a
query-less URI ends up in capture 4 and is both percent-decoded as the tag
and parsed as a query string. -/
def parseHysteria2 (url : Str) (idx : Nat) : PRes ServerConfig :=
  match hy2Caps url with
  | none => .err .malformedUri
  | some (pwEnc, host, portS, g4, g5) =>
    (ofOpt .invalidPort (parseU16 portS)).bind fun port =>
    (match g5 with
     | some m => ofOptPanic (urlDecode m)
     | none =>
       match g4 with
       | some m => ofOptPanic (urlDecode m)
       | none => .ok (cs "hysteria2-" ++ natRepr idx)).bind fun tag =>
    (ofOpt .utf8Error (urlDecode pwEnc)).bind fun password =>
    (match g4 with
     | some q =>
       (parseQuery q).bind fun params =>
       .ok ((lookupKV params (cs "sni")).getD [],
         (match (lookupKV params (cs "insecure")).or
             (lookupKV params (cs "allowInsecure")) with
          | some v => v = cs "1" || v = cs "true"
          | none => false),
         lookupKV params (cs "obfs"), lookupKV params (cs "obfs-password"))
     | none => .ok ([], false, none, none)).bind fun q4 =>
    .ok (.hysteria2 (sanitizeTag tag (cs "hysteria2") idx false) host port
      password q4.1 q4.2.1 q4.2.2.1 q4.2.2.2)

/-! ### JSON values and `serde_json::from_str` (used by `parse_vmess`) -/

/-- A parsed JSON value.  Numbers keep only their raw spelling: the
`VmessConfig` deserializer rejects any non-string field value, so the
numeric value itself is never consulted. -/
inductive JVal where
  | jnull
  | jbool (b : Bool)
  | jnum (raw : Str)
  | jstr (s : Str)
  | jarr (xs : List JVal)
  | jobj (kvs : List (Str × JVal))

/-- JSON insignificant whitespace. -/
def jsonWs (s : Str) : Str :=
  s.dropWhile (fun c => c = ' ' || c = '\t' || c = '\n' || c = '\r')

/-- Four hex digits of a `\u` escape. -/
def parseHex4 : Str → Option (Nat × Str)
  | c0 :: c1 :: c2 :: c3 :: r =>
    (match hexValB c0.toNat, hexValB c1.toNat, hexValB c2.toNat,
        hexValB c3.toNat with
     | some a, some b, some c, some d =>
       some (((a * 16 + b) * 16 + c) * 16 + d, r)
     | _, _, _, _ => none)
  | _ => none

/-- JSON string body after the opening quote; follows `serde_json`: control
characters must be escaped, `\u` surrogate halves must pair up. -/
def parseJStrAux : Nat → Str → Option (Str × Str)
  | 0, _ => none
  | fuel + 1, s =>
    match s with
    | [] => none
    | '"' :: r => some ([], r)
    | '\\' :: e :: r =>
      (match e with
       | '"' => (parseJStrAux fuel r).map (fun p => ('"' :: p.1, p.2))
       | '\\' => (parseJStrAux fuel r).map (fun p => ('\\' :: p.1, p.2))
       | '/' => (parseJStrAux fuel r).map (fun p => ('/' :: p.1, p.2))
       | 'b' => (parseJStrAux fuel r).map (fun p => (Char.ofNat 8 :: p.1, p.2))
       | 'f' => (parseJStrAux fuel r).map (fun p => (Char.ofNat 12 :: p.1, p.2))
       | 'n' => (parseJStrAux fuel r).map (fun p => ('\n' :: p.1, p.2))
       | 'r' => (parseJStrAux fuel r).map (fun p => (Char.ofNat 13 :: p.1, p.2))
       | 't' => (parseJStrAux fuel r).map (fun p => ('\t' :: p.1, p.2))
       | 'u' =>
         (match parseHex4 r with
          | none => none
          | some (n, r2) =>
            if 0xD800 ≤ n ∧ n ≤ 0xDBFF then
              match r2 with
              | '\\' :: 'u' :: r3 =>
                (match parseHex4 r3 with
                 | some (m, r4) =>
                   if 0xDC00 ≤ m ∧ m ≤ 0xDFFF then
                     (parseJStrAux fuel r4).map (fun p =>
                       (Char.ofNat (0x10000 + (n - 0xD800) * 1024 +
                         (m - 0xDC00)) :: p.1, p.2))
                   else none
                 | none => none)
              | _ => none
            else if 0xDC00 ≤ n ∧ n ≤ 0xDFFF then none
            else (parseJStrAux fuel r2).map (fun p => (Char.ofNat n :: p.1, p.2)))
       | _ => none)
    | c :: r =>
      if c.toNat < 0x20 then none
      else (parseJStrAux fuel r).map (fun p => (c :: p.1, p.2))

/-- JSON number grammar; returns the raw spelling and the remainder. -/
def parseJNum (s : Str) : Option (Str × Str) :=
  let sp := match s with | '-' :: r => (cs "-", r) | _ => (([] : Str), s)
  match sp.2 with
  | [] => none
  | c :: _ =>
    if isDigitB c then
      let intPart := sp.2.takeWhile isDigitB
      let s2 := sp.2.dropWhile isDigitB
      if c = '0' ∧ intPart.length ≠ 1 then none
      else
        let fr :=
          match s2 with
          | '.' :: r =>
            if r.takeWhile isDigitB = [] then none
            else some ('.' :: r.takeWhile isDigitB, r.dropWhile isDigitB)
          | _ => some ([], s2)
        match fr with
        | none => none
        | some (fracRaw, s3) =>
          let ex :=
            match s3 with
            | c' :: r =>
              if c' = 'e' ∨ c' = 'E' then
                let sg := match r with
                  | '+' :: r2 => (['+'], r2)
                  | '-' :: r2 => (['-'], r2)
                  | _ => (([] : Str), r)
                if sg.2.takeWhile isDigitB = [] then none
                else some (c' :: sg.1 ++ sg.2.takeWhile isDigitB,
                  sg.2.dropWhile isDigitB)
              else some ([], s3)
            | [] => some ([], s3)
          match ex with
          | none => none
          | some (expRaw, s4) =>
            some (sp.1 ++ intPart ++ fracRaw ++ expRaw, s4)
    else none

mutual

/-- JSON value parser (fuel-bounded; `jsonFromStr` supplies enough fuel). -/
def parseJVal : Nat → Str → Option (JVal × Str)
  | 0, _ => none
  | fuel + 1, s =>
    let s := jsonWs s
    match s with
    | [] => none
    | c :: r =>
      if c = 'n' then (dropPfx (cs "ull") r).map (fun r2 => (.jnull, r2))
      else if c = 't' then (dropPfx (cs "rue") r).map (fun r2 => (.jbool true, r2))
      else if c = 'f' then (dropPfx (cs "alse") r).map (fun r2 => (.jbool false, r2))
      else if c = '"' then (parseJStrAux (r.length + 1) r).map (fun p => (.jstr p.1, p.2))
      else if c = '[' then
        match jsonWs r with
        | ']' :: r2 => some (.jarr [], r2)
        | r1 => (parseJArrItems fuel r1).map (fun p => (.jarr p.1, p.2))
      else if c = Char.ofNat 123 then
        match jsonWs r with
        | c2 :: r2 => if c2 = Char.ofNat 125 then some (.jobj [], r2)
            else (parseJObjItems fuel (c2 :: r2)).map (fun p => (.jobj p.1, p.2))
        | [] => none
      else (parseJNum s).map (fun p => (.jnum p.1, p.2))

/-- Array elements, positioned at the start of an element. -/
def parseJArrItems : Nat → Str → Option (List JVal × Str)
  | 0, _ => none
  | fuel + 1, s =>
    match parseJVal fuel s with
    | none => none
    | some (v, rest) =>
      match jsonWs rest with
      | ',' :: r2 => (parseJArrItems fuel (jsonWs r2)).map (fun p => (v :: p.1, p.2))
      | ']' :: r2 => some ([v], r2)
      | _ => none

/-- Object members, positioned at the start of a key. -/
def parseJObjItems : Nat → Str → Option (List (Str × JVal) × Str)
  | 0, _ => none
  | fuel + 1, s =>
    match jsonWs s with
    | '"' :: r =>
      (match parseJStrAux (r.length + 1) r with
       | none => none
       | some (k, r2) =>
         match jsonWs r2 with
         | ':' :: r3 =>
           (match parseJVal fuel r3 with
            | none => none
            | some (v, r4) =>
              match jsonWs r4 with
              | ',' :: r5 => (parseJObjItems fuel r5).map (fun p => ((k, v) :: p.1, p.2))
              | c :: r5 => if c = Char.ofNat 125 then some ([(k, v)], r5) else none
              | [] => none)
         | _ => none)
    | _ => none

end

/-- Rust `serde_json::from_str`'s lexical phase: one JSON value followed only by
whitespace. -/
def jsonFromStr (s : Str) : Option JVal :=
  match parseJVal (2 * s.length + 2) s with
  | some (v, rest) => if jsonWs rest = [] then some v else none
  | none => none

/-- Rust `VmessConfig` (`src/parser.rs:101-120`). -/
structure VmessConfig where
  ps : Str
  add : Str
  port : Str
  id : Str
  aid : Str
  scy : Str
  net : Str
  type_field : Option Str
  host : Option Str
  path : Option Str
  tls : Option Str
  sni : Option Str
  alpn : Option Str
  fp : Option Str
  insecure : Option Str
deriving DecidableEq, Repr

/-- A mandatory `String` field of the serde struct: exactly one occurrence,
with a string value. -/
def reqStr (kvs : List (Str × JVal)) (k : Str) : Option Str :=
  match kvs.filter (fun p => p.1 = k) with
  | [(_, .jstr s)] => some s
  | _ => none

/-- An `Option<String>` field: absent or null maps to `none`, one string
occurrence to `some`; anything else is a deserialization error. -/
def optStr (kvs : List (Str × JVal)) (k : Str) : Option (Option Str) :=
  match kvs.filter (fun p => p.1 = k) with
  | [] => some none
  | [(_, .jstr s)] => some (some s)
  | [(_, .jnull)] => some none
  | _ => none

/-- Rust `serde_json::from_str::<VmessConfig>`, field extraction phase; unknown
fields are ignored as serde does by default. -/
def vmessOfJson : JVal → Option VmessConfig
  | .jobj kvs =>
    match reqStr kvs (cs "ps"), reqStr kvs (cs "add"), reqStr kvs (cs "port"),
        reqStr kvs (cs "id"), reqStr kvs (cs "aid"), reqStr kvs (cs "scy"),
        reqStr kvs (cs "net") with
    | some ps, some add, some port, some id, some aid, some scy, some net =>
      match optStr kvs (cs "type"), optStr kvs (cs "host"),
          optStr kvs (cs "path"), optStr kvs (cs "tls"), optStr kvs (cs "sni"),
          optStr kvs (cs "alpn"), optStr kvs (cs "fp"),
          optStr kvs (cs "insecure") with
      | some ty, some host, some path, some tls, some sni, some alpn, some fp,
          some insecure =>
        some ⟨ps, add, port, id, aid, scy, net, ty, host, path, tls, sni, alpn,
          fp, insecure⟩
      | _, _, _, _, _, _, _, _ => none
    | _, _, _, _, _, _, _ => none
  | _ => none

/-- Rust `parse_vmess` (`src/parser.rs:332-431`), from the decoded config on. -/
def vmessFromConfig (config : VmessConfig) (idx : Nat) : PRes ServerConfig :=
  (if config.ps ≠ [] then ofOptPanic (urlDecode config.ps)
   else .ok (cs "vmess-" ++ natRepr idx)).bind fun tag =>
  (ofOpt .invalidPort (parseU16 config.port)).bind fun port =>
  (ofOpt .invalidNumeric (parseU16 config.aid)).bind fun alterId =>
  let network := mapLower config.net
  let security := mapLower config.scy
  let ns :=
    if network = cs "ws" then
      some (.webSocket (config.path.getD (cs "/")) (config.host.getD []))
    else if network = cs "grpc" then
      some (.grpc (config.path.getD []) (config.host.getD []))
    else if network = cs "tcp" then
      some (NetworkSettings.tcp (config.type_field.getD (cs "none")))
    else none
  let isTls := config.tls = some (cs "tls")
  let allowInsec :=
    match config.insecure with
    | some v => v = cs "1" || v = cs "true"
    | none => false
  let tls :=
    if isTls then
      some
        { server_name := config.sni.getD []
          fingerprint := config.fp.getD (cs "chrome")
          alpn := config.alpn.map (fun a =>
            ((splitOnChar ',' a).map trimStr).filter (· ≠ []))
          allow_insecure := allowInsec
          public_key := none
          short_id := none
          spider_x := none : TlsSettings }
    else none
  let w := checkIsWarp tag []
  .ok (.vmess (sanitizeTag tag (cs "vmess") idx w) config.add port config.id
    alterId security network ns tls allowInsec)

/-- Rust `parse_vmess` (`src/parser.rs:332-431`): base64, UTF-8 and JSON
deserialization in front of `vmessFromConfig`. -/
def parseVmess (url : Str) (idx : Nat) : PRes ServerConfig :=
  if startsWithStr url (cs "vmess://") then
    let b64data := trimStartMatches (cs "vmess://") url
    if b64data = [] then .err .malformedUri
    else
      (ofOpt .base64Error
        (if b64data.contains '-' || b64data.contains '_' then
          b64DecodeUrl b64data
         else b64DecodeStd b64data)).bind fun decoded =>
      (ofOpt .utf8Error (utf8Decode decoded)).bind fun jsonStr =>
      (ofOpt .invalidJson (jsonFromStr jsonStr)).bind fun j =>
      (ofOpt .invalidJson (vmessOfJson j)).bind fun config =>
      vmessFromConfig config idx
  else .err .malformedUri

/-! ### Dispatcher and batch loop (`src/parser.rs:148-183`) -/

/-- Rust `parse_server_url` (`src/parser.rs:169-183`). -/
def parseServerUrl (url : Str) (idx : Nat) : PRes ServerConfig :=
  if startsWithStr url (cs "ss://") then parseShadowsocks url idx
  else if startsWithStr url (cs "vless://") then parseVless url idx
  else if startsWithStr url (cs "vmess://") then parseVmess url idx
  else if startsWithStr url (cs "trojan://") then parseTrojan url idx
  else if startsWithStr url (cs "hysteria2://") then parseHysteria2 url idx
  else .err .unsupportedProtocol

/-- Rust `str::lines`. -/
def rustLines (s : Str) : List Str :=
  let raw := splitOnChar '\n' s
  let raw := if raw.getLast? = some [] then raw.dropLast else raw
  raw.map (fun l => if l.getLast? = some '\r' then l.dropLast else l)

/-- The loop body of `parse_servers`: an `Err` is logged and dropped, an
`Ok` is pushed, and a panic aborts the whole call (no partial result). -/
def parseServersAux : List Str → Nat → Option (List ServerConfig)
  | [], _ => some []
  | line :: rest, idx =>
    let line := trimStr line
    if line = [] then parseServersAux rest (idx + 1)
    else
      match parseServerUrl line idx with
      | .ok s => (parseServersAux rest (idx + 1)).map (s :: ·)
      | .err _ => parseServersAux rest (idx + 1)
      | .panic => none

/-- Rust `parse_servers` (`src/parser.rs:148-167`); `none` models a panic
escaping the batch call. -/
def parseServers (content : Str) : Option (List ServerConfig) :=
  parseServersAux ((rustLines content).filter (fun l => trimStr l ≠ [])) 0

/-! ### Document values (`serde_json::Value` as built by the synthesizers)

Key order inside objects records construction order; the claims under
verification never compare documents across different key orders. -/

inductive Json where
  | b (v : Bool)
  | n (v : Nat)
  | s (v : Str)
  | arr (xs : List Json)
  | obj (kvs : List (Str × Json))

/-- Rust `value[key] = v` on a `serde_json::Value`: inserts or overwrites when
`value` is an object and panics (`none`) otherwise.  In the synthesizers the
target is always an object literal. -/
def setKey : Json → Str → Json → Option Json
  | .obj kvs, k, v =>
    if kvs.any (fun p => p.1 = k) then
      some (.obj (kvs.map (fun p => if p.1 = k then (k, v) else p)))
    else some (.obj (kvs ++ [(k, v)]))
  | _, _, _ => none

/-- Rust `if let Some(x) = o { j[k] = x; }` -/
def setKeyIf (j : Json) (k : Str) (v : Option Json) : Option Json :=
  match v with
  | some v => setKey j k v
  | none => some j

/-- Field lookup on an object (first binding wins). -/
def jGetKvs : List (Str × Json) → Str → Option Json
  | [], _ => none
  | p :: r, k => if p.1 = k then some p.2 else jGetKvs r k

def jGet (j : Json) (k : Str) : Option Json :=
  match j with
  | .obj kvs => jGetKvs kvs k
  | _ => none

/-! ### The outbound synthesizer (`src/config/outbound.rs`) -/

/-- Lines 72-104: TLS/Reality augmentation of the vless stream settings. -/
def vlessStreamTls (stream : Json) (security : Str) :
    Option TlsSettings → Option Json
  | some tls =>
    if security = cs "reality" then
      (setKeyIf (.obj [(cs "fingerprint", .s tls.fingerprint),
          (cs "serverName", .s tls.server_name)])
        (cs "publicKey") (tls.public_key.map .s)).bind fun r1 =>
      (setKeyIf r1 (cs "shortId") (tls.short_id.map .s)).bind fun r2 =>
      (setKeyIf r2 (cs "spiderX") (tls.spider_x.map .s)).bind fun r3 =>
      setKey stream (cs "realitySettings") r3
    else if security = cs "tls" then
      (setKeyIf (.obj [(cs "fingerprint", .s tls.fingerprint),
          (cs "serverName", .s tls.server_name),
          (cs "allowInsecure", .b tls.allow_insecure)])
        (cs "alpn")
        (tls.alpn.map (fun (a : List Str) =>
          Json.arr (a.map Json.s)))).bind fun t1 =>
      setKey stream (cs "tlsSettings") t1
    else some stream
  | none => some stream

/-- Lines 106-133: vless network settings (`host` at the top level of the
ws record, a tcp record written unconditionally). -/
def vlessStreamNet (stream : Json) : Option NetworkSettings → Option Json
  | some (.webSocket path host) =>
    setKey stream (cs "wsSettings")
      (.obj [(cs "path", .s path), (cs "host", .s host)])
  | some (.grpc service_name authority) =>
    setKey stream (cs "grpcSettings")
      (.obj [(cs "serviceName", .s service_name),
        (cs "authority", .s authority), (cs "multiMode", .b false)])
  | some (.tcp header_type) =>
    setKey stream (cs "tcpSettings")
      (.obj [(cs "header", .obj [(cs "type", .s header_type)])])
  | none => some stream

/-- Lines 191-207 and 281-297: the `tlsSettings` object shared by the vmess
and trojan arms (`allowInsecure` is the OR of the descriptor flag and the
TLS-block flag; the fingerprint is dropped when empty or `"none"`; `alpn`
is dropped when empty). -/
def vmessTrojanTlsJson (allow_insecure : Bool) (tls : TlsSettings) :
    Option Json :=
  let base : Json := .obj [(cs "serverName", .s tls.server_name),
    (cs "allowInsecure", .b (allow_insecure || tls.allow_insecure))]
  (if tls.fingerprint ≠ [] ∧ tls.fingerprint ≠ cs "none" then
    setKey base (cs "fingerprint") (.s tls.fingerprint)
   else some base).bind fun t1 =>
  match tls.alpn with
  | some alpn =>
    if alpn ≠ [] then setKey t1 (cs "alpn") (.arr (alpn.map .s)) else some t1
  | none => some t1

/-- Lines 210-241 and 300-331: vmess/trojan network settings (the ws host
inside a `headers.Host` member, the tcp record suppressed for header type
`"none"`). -/
def hostHeaderStreamNet (stream : Json) : Option NetworkSettings → Option Json
  | some (.webSocket path host) =>
    setKey stream (cs "wsSettings")
      (.obj [(cs "path", .s path),
        (cs "headers", .obj [(cs "Host", .s host)])])
  | some (.grpc service_name authority) =>
    setKey stream (cs "grpcSettings")
      (.obj [(cs "serviceName", .s service_name),
        (cs "authority", .s authority), (cs "multiMode", .b false)])
  | some (.tcp header_type) =>
    if header_type ≠ cs "none" then
      setKey stream (cs "tcpSettings")
        (.obj [(cs "header", .obj [(cs "type", .s header_type)])])
    else some stream
  | none => some stream

/-- The per-descriptor record of `generate_outbounds`
(`src/config/outbound.rs:10-371`); `none` models a panic of a
`value[key] = ...` assignment (never reachable, see the totality theorem). -/
def serverOutbound : ServerConfig → Option Json
  | .shadowsocks tag address port method password =>
    some (.obj [(cs "tag", .s tag), (cs "protocol", .s (cs "shadowsocks")),
      (cs "settings", .obj [(cs "servers", .arr [.obj
        [(cs "address", .s address), (cs "port", .n port),
         (cs "method", .s method), (cs "password", .s password)]])])])
  | .vless tag address port id encryption flow network security tls_settings
      network_settings =>
    let outbound0 : Json := .obj [(cs "tag", .s tag),
      (cs "protocol", .s (cs "vless")),
      (cs "settings", .obj [(cs "vnext", .arr [.obj
        [(cs "address", .s address), (cs "port", .n port),
         (cs "users", .arr [.obj [(cs "id", .s id), (cs "flow", .s flow),
           (cs "encryption", .s encryption), (cs "level", .n 0)]])]])])]
    let stream0 : Json := .obj [(cs "network", .s network),
      (cs "security", .s security)]
    (vlessStreamTls stream0 security tls_settings).bind fun stream1 =>
    (vlessStreamNet stream1 network_settings).bind fun stream2 =>
    setKey outbound0 (cs "streamSettings") stream2
  | .vmess tag address port id alter_id security network network_settings
      tls_settings allow_insecure =>
    let outbound0 : Json := .obj [(cs "tag", .s tag),
      (cs "protocol", .s (cs "vmess")),
      (cs "settings", .obj [(cs "vnext", .arr [.obj
        [(cs "address", .s address), (cs "port", .n port),
         (cs "users", .arr [.obj [(cs "id", .s id),
           (cs "alterId", .n alter_id), (cs "security", .s security),
           (cs "level", .n 0)]])]])])]
    let stream0 : Json := .obj [(cs "network", .s network)]
    let securityType : Str :=
      match tls_settings with
      | some tls => if tls.server_name ≠ [] then cs "tls" else cs "none"
      | none => cs "none"
    (setKey stream0 (cs "security") (.s securityType)).bind fun stream1 =>
    (if securityType = cs "tls" then
      match tls_settings with
      | some tls =>
        (vmessTrojanTlsJson allow_insecure tls).bind fun t2 =>
        setKey stream1 (cs "tlsSettings") t2
      | none => some stream1
     else some stream1).bind fun stream2 =>
    (hostHeaderStreamNet stream2 network_settings).bind fun stream3 =>
    setKey outbound0 (cs "streamSettings") stream3
  | .trojan tag address port password network security tls_settings
      network_settings allow_insecure =>
    let outbound0 : Json := .obj [(cs "tag", .s tag),
      (cs "protocol", .s (cs "trojan")),
      (cs "settings", .obj [(cs "servers", .arr [.obj
        [(cs "address", .s address), (cs "port", .n port),
         (cs "password", .s password), (cs "level", .n 0)]])])]
    let stream0 : Json := .obj [(cs "network", .s network),
      (cs "security", .s security)]
    (if security = cs "tls" then
      match tls_settings with
      | some tls =>
        (vmessTrojanTlsJson allow_insecure tls).bind fun t2 =>
        setKey stream0 (cs "tlsSettings") t2
      | none => some stream0
     else some stream0).bind fun stream1 =>
    (hostHeaderStreamNet stream1 network_settings).bind fun stream2 =>
    setKey outbound0 (cs "streamSettings") stream2
  | .hysteria2 tag address port password server_name allow_insecure obfs
      obfs_password =>
    let settings0 : Json := .obj [(cs "auth", .s password),
      (cs "server", .s address), (cs "serverPort", .n port),
      (cs "tls", .obj [(cs "enabled", .b true),
        (cs "serverName", .s server_name),
        (cs "insecure", .b allow_insecure)])]
    (match obfs with
     | some obfsType =>
       setKey settings0 (cs "obfs") (.obj [(cs "type", .s obfsType),
         (cs "password", .s (obfs_password.getD []))])
     | none => some settings0).bind fun st =>
    some (.obj [(cs "tag", .s tag), (cs "protocol", .s (cs "hysteria")),
      (cs "settings", st)])

/-- The first fixed terminal record (`src/config/outbound.rs:377-380`). -/
def directOutbound : Json :=
  .obj [(cs "tag", .s (cs "direct")), (cs "protocol", .s (cs "freedom"))]

/-- The second fixed terminal record (`src/config/outbound.rs:382-390`). -/
def blockOutbound : Json :=
  .obj [(cs "tag", .s (cs "block")), (cs "protocol", .s (cs "blackhole")),
    (cs "settings", .obj [(cs "response", .obj [(cs "type", .s (cs "http"))])])]

/-- The accumulation loop of `generate_outbounds`
(`src/config/outbound.rs:9-374`), in input order. -/
def outboundsList : List ServerConfig → Option (List Json)
  | [] => some []
  | s :: rest =>
    (serverOutbound s).bind fun o => (outboundsList rest).map (o :: ·)

/-- Rust `generate_outbounds` (`src/config/outbound.rs:5-395`). -/
def generateOutbounds (servers : List ServerConfig) : Option Json :=
  (outboundsList servers).map (fun outs =>
    .obj [(cs "outbounds", .arr (outs ++ [directOutbound, blockOutbound]))])

/-! ### The routing synthesizer (`src/config/routing.rs`) -/

/-- The category loop of `generate_routing` (`src/config/routing.rs:11-20`):
warp first, then cloudflare, then the proxy catch-all. -/
def categorize : List ServerConfig → List Str × List Str × List Str
  | [] => ([], [], [])
  | s :: rest =>
    let wcp := categorize rest
    if s.isWarp then (s.tag :: wcp.1, wcp.2.1, wcp.2.2)
    else if s.isCloudflare then (wcp.1, s.tag :: wcp.2.1, wcp.2.2)
    else (wcp.1, wcp.2.1, s.tag :: wcp.2.2)

/-- One balancer record (`src/config/routing.rs:26-52`). -/
def mkBalancer (tag : Str) (sel : List Str) : Json :=
  .obj [(cs "tag", .s tag), (cs "selector", .arr (sel.map .s)),
    (cs "strategy", .obj [(cs "type", .s (cs "leastping"))])]

/-- The balancer list (`src/config/routing.rs:23-53`): claude, warp, proxy,
each present only when its selector is non-empty. -/
def balancersList (w c p : List Str) : List Json :=
  (if c ≠ [] then [mkBalancer (cs "claude-balance") c] else []) ++
    (if w ≠ [] then [mkBalancer (cs "warp-balance") w] else []) ++
    (if p ≠ [] then [mkBalancer (cs "proxy-balance") p] else [])

/-- The recurring `"inboundTag": ["redirect", "tproxy"]` member. -/
def inbTag : Str × Json :=
  (cs "inboundTag", .arr [.s (cs "redirect"), .s (cs "tproxy")])

def dnsRule : Json :=
  .obj [(cs "type", .s (cs "field")), inbTag,
    (cs "outboundTag", .s (cs "direct")), (cs "port", .s (cs "53"))]

def netbiosRule : Json :=
  .obj [(cs "type", .s (cs "field")), inbTag,
    (cs "outboundTag", .s (cs "block")), (cs "network", .s (cs "udp")),
    (cs "port", .s (cs "135,137,138,139"))]

def adsRule : Json :=
  .obj [(cs "type", .s (cs "field")), inbTag,
    (cs "outboundTag", .s (cs "block")),
    (cs "domain", .arr [.s (cs "ext:geosite_v2fly.dat:category-ads-all"),
      .s (cs "domain:pagead2.googlesyndication.com"),
      .s (cs "domain:googleads.g.doubleclick.net"),
      .s (cs "domain:ad.adriver.ru"), .s (cs "domain:pink.habralab.ru"),
      .s (cs "domain:www.google-analytics.com"),
      .s (cs "domain:ssl.google-analytics.com"),
      .s (cs "analytics.yandex"), .s (cs "appcenter.ms"),
      .s (cs "app-measurement.com"), .s (cs "firebase.io"),
      .s (cs "crashlytics.com")])]

/-- One balancer-routing rule (`src/config/routing.rs:97-122`). -/
def balRule (t : Str) : Json :=
  .obj [(cs "type", .s (cs "field")), inbTag, (cs "balancerTag", .s t),
    (cs "domain", .arr [])]

def btRule : Json :=
  .obj [(cs "type", .s (cs "field")), inbTag,
    (cs "outboundTag", .s (cs "direct")),
    (cs "protocol", .arr [.s (cs "bittorrent")])]

def localIpsRule : Json :=
  .obj [(cs "type", .s (cs "field")), inbTag,
    (cs "outboundTag", .s (cs "direct")),
    (cs "ip", .arr [.s (cs "127.0.0.0/8"), .s (cs "10.0.0.0/8"),
      .s (cs "172.16.0.0/12"), .s (cs "192.168.0.0/16"),
      .s (cs "169.254.0.0/16"), .s (cs "::1/128"), .s (cs "fc00::/7"),
      .s (cs "fe80::/10")])]

/-- The trailing default rule (`src/config/routing.rs:149-165`). -/
def defaultRule (t : Str) : Json :=
  .obj [(cs "type", .s (cs "field")), inbTag, (cs "outboundTag", .s t),
    (cs "network", .s (cs "tcp,udp"))]

/-- The priority choice of the default target
(`src/config/routing.rs:150-158`). -/
def defaultTag (w c p : List Str) : Str :=
  if p ≠ [] then cs "proxy-balance"
  else if c ≠ [] then cs "claude-balance"
  else if w ≠ [] then cs "warp-balance"
  else cs "direct"

/-- The full rule list (`src/config/routing.rs:56-165`). -/
def routingRules (w c p : List Str) : List Json :=
  [dnsRule, netbiosRule, adsRule] ++
    (if c ≠ [] then [balRule (cs "claude-balance")] else []) ++
    (if w ≠ [] then [balRule (cs "warp-balance")] else []) ++
    (if p ≠ [] then [balRule (cs "proxy-balance")] else []) ++
    [btRule, localIpsRule, defaultRule (defaultTag w c p)]

/-- Rust `generate_routing` (`src/config/routing.rs:5-174`); the Rust function
returns `Result` but constructs the document with infallible `json!`
literals and `Vec` pushes only, so it is a total function. -/
def generateRouting (servers : List ServerConfig) : Json :=
  let wcp := categorize servers
  .obj [(cs "routing", .obj [(cs "domainStrategy", .s (cs "IPIfNonMatch")),
    (cs "rules", .arr (routingRules wcp.1 wcp.2.1 wcp.2.2)),
    (cs "balancers", .arr (balancersList wcp.1 wcp.2.1 wcp.2.2))])]

/-- Read the balancer selectors back out of a routing document: for each
entry of `routing.balancers`, the string entries of its `selector` field. -/
def selectorsOf (doc : Json) : List (List Str) :=
  match jGet doc (cs "routing") with
  | some r =>
    (match jGet r (cs "balancers") with
     | some (.arr bs) =>
       bs.map (fun bal =>
         match jGet bal (cs "selector") with
         | some (.arr sel) =>
           sel.filterMap (fun v => match v with | .s t => some t | _ => none)
         | _ => [])
     | _ => [])
  | none => []

/-! ## Helper lemmas: the synthesizers only ever index into objects -/

theorem setKey_obj (kvs : List (Str × Json)) (k : Str) (v : Json) :
    ∃ kvs', setKey (.obj kvs) k v = some (.obj kvs') := by
  simp only [setKey]
  split <;> exact ⟨_, rfl⟩

theorem setKeyIf_obj (kvs : List (Str × Json)) (k : Str) (ov : Option Json) :
    ∃ kvs', setKeyIf (.obj kvs) k ov = some (.obj kvs') := by
  cases ov with
  | none => exact ⟨kvs, rfl⟩
  | some v => exact setKey_obj kvs k v

theorem isObj_bind {o : Option Json} {f : Json → Option Json}
    (h : ∃ kvs, o = some (.obj kvs))
    (hf : ∀ kvs, ∃ kvs', f (.obj kvs) = some (.obj kvs')) :
    ∃ kvs', o.bind f = some (.obj kvs') := by
  obtain ⟨kvs, rfl⟩ := h
  obtain ⟨kvs', h'⟩ := hf kvs
  exact ⟨kvs', h'⟩

theorem vlessStreamTls_obj (kvs : List (Str × Json)) (security : Str)
    (tls : Option TlsSettings) :
    ∃ kvs', vlessStreamTls (.obj kvs) security tls = some (.obj kvs') := by
  cases tls with
  | none => exact ⟨kvs, rfl⟩
  | some t =>
    simp only [vlessStreamTls]
    by_cases h1 : security = cs "reality"
    · rw [if_pos h1]
      refine isObj_bind (setKeyIf_obj _ _ _) fun a1 => ?_
      refine isObj_bind (setKeyIf_obj _ _ _) fun a2 => ?_
      refine isObj_bind (setKeyIf_obj _ _ _) fun a3 => ?_
      exact setKey_obj _ _ _
    · rw [if_neg h1]
      by_cases h2 : security = cs "tls"
      · rw [if_pos h2]
        refine isObj_bind (setKeyIf_obj _ _ _) fun t1 => ?_
        exact setKey_obj _ _ _
      · rw [if_neg h2]
        exact ⟨kvs, rfl⟩

theorem vlessStreamNet_obj (kvs : List (Str × Json))
    (ns : Option NetworkSettings) :
    ∃ kvs', vlessStreamNet (.obj kvs) ns = some (.obj kvs') := by
  cases ns with
  | none => exact ⟨kvs, rfl⟩
  | some n =>
    cases n <;> simp only [vlessStreamNet] <;> exact setKey_obj _ _ _

theorem hostHeaderStreamNet_obj (kvs : List (Str × Json))
    (ns : Option NetworkSettings) :
    ∃ kvs', hostHeaderStreamNet (.obj kvs) ns = some (.obj kvs') := by
  cases ns with
  | none => exact ⟨kvs, rfl⟩
  | some n =>
    cases n with
    | webSocket path host => simp only [hostHeaderStreamNet]; exact setKey_obj _ _ _
    | grpc sn au => simp only [hostHeaderStreamNet]; exact setKey_obj _ _ _
    | tcp ht =>
      simp only [hostHeaderStreamNet]
      split
      · exact setKey_obj _ _ _
      · exact ⟨kvs, rfl⟩

theorem vmessTrojanTlsJson_obj (ai : Bool) (t : TlsSettings) :
    ∃ kvs', vmessTrojanTlsJson ai t = some (.obj kvs') := by
  unfold vmessTrojanTlsJson
  refine isObj_bind ?_ fun t1 => ?_
  · split
    · exact setKey_obj _ _ _
    · exact ⟨_, rfl⟩
  · cases t.alpn with
    | none => exact ⟨t1, rfl⟩
    | some alpn =>
      simp only
      split
      · exact setKey_obj _ _ _
      · exact ⟨t1, rfl⟩

theorem serverOutbound_obj (s : ServerConfig) :
    ∃ kvs, serverOutbound s = some (.obj kvs) := by
  cases s with
  | shadowsocks tag address port method password => exact ⟨_, rfl⟩
  | vless tag address port id encryption flow network security tls ns =>
    simp only [serverOutbound]
    refine isObj_bind (vlessStreamTls_obj _ _ _) fun s1 => ?_
    refine isObj_bind (vlessStreamNet_obj _ _) fun s2 => ?_
    exact setKey_obj _ _ _
  | vmess tag address port id alter_id security network ns tls ai =>
    simp only [serverOutbound]
    refine isObj_bind (setKey_obj _ _ _) fun s1 => ?_
    refine isObj_bind ?_ fun s2 => ?_
    · split
      · cases tls with
        | none => exact ⟨s1, rfl⟩
        | some t =>
          refine isObj_bind (vmessTrojanTlsJson_obj _ _) fun t2 => ?_
          exact setKey_obj _ _ _
      · exact ⟨s1, rfl⟩
    · refine isObj_bind (hostHeaderStreamNet_obj _ _) fun s3 => ?_
      exact setKey_obj _ _ _
  | trojan tag address port password network security tls ns ai =>
    simp only [serverOutbound]
    refine isObj_bind ?_ fun s1 => ?_
    · split
      · cases tls with
        | none => exact ⟨_, rfl⟩
        | some t =>
          refine isObj_bind (vmessTrojanTlsJson_obj _ _) fun t2 => ?_
          exact setKey_obj _ _ _
      · exact ⟨_, rfl⟩
    · refine isObj_bind (hostHeaderStreamNet_obj _ _) fun s2 => ?_
      exact setKey_obj _ _ _
  | hysteria2 tag address port password server_name ai obfs obfs_password =>
    simp only [serverOutbound]
    refine isObj_bind ?_ fun st => ?_
    · cases obfs with
      | none => exact ⟨_, rfl⟩
      | some obfsType => exact setKey_obj _ _ _
    · exact ⟨_, rfl⟩

theorem outboundsList_some (l : List ServerConfig) :
    ∃ outs, outboundsList l = some outs ∧ outs.length = l.length := by
  induction l with
  | nil => exact ⟨[], rfl, rfl⟩
  | cons s rest ih =>
    obtain ⟨outs, ho, hl⟩ := ih
    obtain ⟨kvs, hk⟩ := serverOutbound_obj s
    refine ⟨.obj kvs :: outs, ?_, by simp [hl]⟩
    simp [outboundsList, hk, ho]

/-! ## Claim theorems -/

/-- Claim C1 (code bug): the spec says per-line decoding is total and the
batch call never raises, even on lines whose tag fragment percent-decodes
to invalid UTF-8.  The code instead `unwrap`s the percent-decode of the tag
(`src/parser.rs:223`): on `ss://dGVzdDoxMjM=@1.2.3.4:80#%FF` (the fragment
`%FF` decodes to the non-UTF-8 byte `0xFF`) the decoder panics and
`parse_servers` aborts (modelled by `none`) instead of dropping the line. -/
theorem c1_tag_decode_panics :
    parseShadowsocks (cs "ss://dGVzdDoxMjM=@1.2.3.4:80#%FF") 0 = .panic ∧
      parseServers (cs "ss://dGVzdDoxMjM=@1.2.3.4:80#%FF") = none := by
  constructor <;> decide

/-- Claim C9 (code bug): after the query-less fallback grammar matches, the
code reads capture 4 — which holds the *fragment* in that grammar — as the
query string (`src/parser.rs:546`).  On `hysteria2://p@h:80#sni=x` the
fragment is parsed as a query, so the descriptor's server-name is `"x"`
(and on `hysteria2://p@h:80#insecure=1` allow-insecure is `true`) instead
of the defaults the spec promises for query-less URIs. -/
theorem c9_fragment_read_as_query :
    parseHysteria2 (cs "hysteria2://p@h:80#sni=x") 0 =
      .ok (.hysteria2 (cs "snix") (cs "h") 80 (cs "p") (cs "x") false none
        none) ∧
    parseHysteria2 (cs "hysteria2://p@h:80#insecure=1") 0 =
      .ok (.hysteria2 (cs "insecure1") (cs "h") 80 (cs "p") [] true none
        none) := by
  constructor <;> decide

/-- Claim C10: both synthesizers are total.  `generateOutbounds` is `some`
for every descriptor list (no `value[key] = ...` assignment ever targets a
non-object, the only panic source), and `generateRouting` — whose Rust body
ends in an unconditional `Ok` and contains only infallible `json!` literals
and `Vec` pushes — always yields the wrapped routing document. -/
theorem c10_generators_total (servers : List ServerConfig) :
    (generateOutbounds servers).isSome = true ∧
      ∃ rules balancers, generateRouting servers =
        .obj [(cs "routing",
          .obj [(cs "domainStrategy", .s (cs "IPIfNonMatch")),
            (cs "rules", .arr rules), (cs "balancers", .arr balancers)])] := by
  constructor
  · obtain ⟨outs, ho, _⟩ := outboundsList_some servers
    simp [generateOutbounds, ho]
  · exact ⟨_, _, rfl⟩

/-! ### Claim C2: the warp tag invariant -/

/-- The string `"warp"` is a prefix of `"warp-" ++ l`. -/
theorem startsWith_warpDash (l : Str) :
    startsWithStr (cs "warp-" ++ l) (cs "warp") = true := rfl

/-- Sanitizing with the warp flag set always yields a `"warp"`-prefixed
tag (shared helper; `src/parser.rs:717-721`). -/
theorem sanitizeTag_true_warpPre (tag protocol : Str) (idx : Nat) :
    startsWithStr (sanitizeTag tag protocol idx true) (cs "warp") = true := by
  simp only [sanitizeTag]
  split
  · exact startsWith_warpDash _
  · next h =>
    simp only [Bool.true_and, Bool.not_eq_eq_eq_not, Bool.not_true] at h
    simp [h]

/-- Claim C2, counterexample: `parse_shadowsocks` passes `is_warp = false`
to the sanitizer (`src/parser.rs:255`), so the decoded descriptor of
`ss://dGVzdDoxMjM=@1.2.3.4:80#my-warp` satisfies `is_warp` (its tag
contains `"warp"`) while its tag does not start with `"warp"`. -/
theorem c2_counterexample :
    parseShadowsocks (cs "ss://dGVzdDoxMjM=@1.2.3.4:80#my-warp") 0 =
      .ok (.shadowsocks (cs "my-warp") (cs "1.2.3.4") 80 (cs "test")
        (cs "123")) ∧
    (ServerConfig.shadowsocks (cs "my-warp") (cs "1.2.3.4") 80 (cs "test")
      (cs "123")).isWarp = true ∧
    startsWithStr (ServerConfig.shadowsocks (cs "my-warp") (cs "1.2.3.4") 80
      (cs "test") (cs "123")).tag (cs "warp") = false := by
  refine ⟨by decide, by decide, by decide⟩

/-- Claim C2, amended: a descriptor's tag is guaranteed to start with
`"warp"` exactly when its decoder calls the sanitizer with the warp flag
set (vless/vmess warp detection); the ss, trojan and hysteria2 decoders
always pass `false`, so their descriptors may satisfy `is_warp` without
the prefix. -/
theorem c2_amended (tag protocol : Str) (idx : Nat) :
    startsWithStr (sanitizeTag tag protocol idx true) (cs "warp") = true :=
  sanitizeTag_true_warpPre tag protocol idx

/-! ### Claim C3: shape of the outbound document -/

theorem outboundsList_getElem (l : List ServerConfig) (outs : List Json)
    (h : outboundsList l = some outs) (i : Nat) :
    l[i]?.bind serverOutbound = outs[i]? := by
  induction l generalizing outs i with
  | nil =>
    simp only [outboundsList] at h
    cases h
    simp
  | cons s rest ih =>
    simp only [outboundsList] at h
    cases hs : serverOutbound s with
    | none => rw [hs] at h; simp [Option.bind] at h
    | some o =>
      rw [hs] at h
      cases hr : outboundsList rest with
      | none => rw [hr] at h; simp [Option.bind] at h
      | some outs' =>
        rw [hr] at h
        simp only [Option.bind, Option.map] at h
        cases h
        cases i with
        | zero => simp [hs]
        | succ j =>
          simp only [List.getElem?_cons_succ]
          exact ih outs' hr j

/-- Claim C3: for every descriptor sequence the outbound document is the
wrapper around `outs ++ [direct, block]`: its array has `len + 2` entries,
entry `i` (`i < len`) is the record derived from descriptor `i` in input
order, and the last two entries are the fixed `direct`/`freedom` and
`block`/`blackhole` (with `settings.response.type = "http"`) records. -/
theorem c3_outbound_shape (servers : List ServerConfig) (outs : List Json)
    (h : outboundsList servers = some outs) :
    generateOutbounds servers = some (.obj [(cs "outbounds",
      .arr (outs ++ [directOutbound, blockOutbound]))]) ∧
    (outs ++ [directOutbound, blockOutbound]).length = servers.length + 2 ∧
    (outs ++ [directOutbound, blockOutbound]).drop servers.length =
      [.obj [(cs "tag", .s (cs "direct")),
         (cs "protocol", .s (cs "freedom"))],
       .obj [(cs "tag", .s (cs "block")), (cs "protocol", .s (cs "blackhole")),
         (cs "settings", .obj [(cs "response",
           .obj [(cs "type", .s (cs "http"))])])]] ∧
    ∀ i, i < servers.length →
      servers[i]?.bind serverOutbound =
        (outs ++ [directOutbound, blockOutbound])[i]? := by
  have hlen : outs.length = servers.length := by
    obtain ⟨outs', h', hl⟩ := outboundsList_some servers
    rw [h] at h'
    injection h' with h''
    rw [h'']
    exact hl
  refine ⟨?_, ?_, ?_, ?_⟩
  · simp [generateOutbounds, h]
  · simp [hlen]
  · rw [← hlen, List.drop_left]
    rfl
  · intro i hi
    rw [outboundsList_getElem servers outs h i,
      List.getElem?_append_left (by omega)]

/-- Witness for C3 at a one-descriptor input. -/
theorem c3_witness :
    generateOutbounds [.shadowsocks (cs "a") (cs "h") 80 (cs "m") (cs "pw")] =
      some (.obj [(cs "outbounds", .arr
        ([.obj [(cs "tag", .s (cs "a")),
            (cs "protocol", .s (cs "shadowsocks")),
            (cs "settings", .obj [(cs "servers", .arr [.obj
              [(cs "address", .s (cs "h")), (cs "port", .n 80),
               (cs "method", .s (cs "m")),
               (cs "password", .s (cs "pw"))]])])]] ++
          [directOutbound, blockOutbound]))]) ∧
    ([Json.obj [(cs "tag", .s (cs "a")),
        (cs "protocol", .s (cs "shadowsocks")),
        (cs "settings", .obj [(cs "servers", .arr [.obj
          [(cs "address", .s (cs "h")), (cs "port", .n 80),
           (cs "method", .s (cs "m")), (cs "password", .s (cs "pw"))]])])]] ++
      [directOutbound, blockOutbound]).length = 1 + 2 := by
  have h := c3_outbound_shape
    [.shadowsocks (cs "a") (cs "h") 80 (cs "m") (cs "pw")]
    [.obj [(cs "tag", .s (cs "a")), (cs "protocol", .s (cs "shadowsocks")),
      (cs "settings", .obj [(cs "servers", .arr [.obj
        [(cs "address", .s (cs "h")), (cs "port", .n 80),
         (cs "method", .s (cs "m")), (cs "password", .s (cs "pw"))]])])]]
    rfl
  exact ⟨h.1, h.2.1⟩

/-! ### Claim C4: the balancer selectors partition the descriptor tags -/

theorem categorize_eq (servers : List ServerConfig) :
    categorize servers =
      ((servers.filter (·.isWarp)).map (·.tag),
       (servers.filter (fun s => !s.isWarp && s.isCloudflare)).map (·.tag),
       (servers.filter (fun s => !s.isWarp && !s.isCloudflare)).map (·.tag)) := by
  induction servers with
  | nil => rfl
  | cons s rest ih =>
    simp only [categorize, ih]
    by_cases hw : s.isWarp
    · simp [hw, List.filter_cons]
    · by_cases hc : s.isCloudflare
      · simp [hw, hc, List.filter_cons]
      · simp [hw, hc, List.filter_cons]

theorem filter_three_perm (servers : List ServerConfig) :
    ((servers.filter (fun s => !s.isWarp && s.isCloudflare)).map (·.tag) ++
      (servers.filter (·.isWarp)).map (·.tag) ++
      (servers.filter (fun s => !s.isWarp && !s.isCloudflare)).map
        (·.tag)).Perm (servers.map (·.tag)) := by
  induction servers with
  | nil => simp
  | cons s rest ih =>
    rw [List.append_assoc] at ih ⊢
    by_cases hw : s.isWarp
    · rw [List.filter_cons_of_neg (by simp [hw]),
        List.filter_cons_of_pos (by simpa using hw),
        List.filter_cons_of_neg (by simp [hw]), List.map_cons, List.map_cons]
      exact List.perm_middle.trans (List.Perm.cons _ ih)
    · by_cases hc : s.isCloudflare
      · rw [List.filter_cons_of_pos (by simp [hw, hc]),
          List.filter_cons_of_neg (by simp [hw]),
          List.filter_cons_of_neg (by simp [hw, hc]), List.map_cons,
          List.map_cons]
        exact List.Perm.cons _ ih
      · rw [List.filter_cons_of_neg (by simp [hw, hc]),
          List.filter_cons_of_neg (by simp [hw]),
          List.filter_cons_of_pos (by simp [hw, hc]), List.map_cons,
          List.map_cons, ← List.append_assoc]
        refine List.perm_middle.trans ?_
        rw [List.append_assoc]
        exact List.Perm.cons _ ih

theorem selTags (sel : List Str) :
    (sel.map Json.s).filterMap
      (fun v => match v with | .s t => some t | _ => none) = sel := by
  induction sel with
  | nil => rfl
  | cons a r ih => simp [List.filterMap_cons, ih]

theorem selectorsOf_routing (w c p : List Str) :
    selectorsOf (.obj [(cs "routing", .obj
      [(cs "domainStrategy", .s (cs "IPIfNonMatch")),
       (cs "rules", .arr (routingRules w c p)),
       (cs "balancers", .arr (balancersList w c p))])]) =
    [c, w, p].filter (fun l => l ≠ []) := by
  have h1 : ¬(cs "domainStrategy" = cs "balancers") := by decide
  have h2 : ¬(cs "rules" = cs "balancers") := by decide
  have h3 : ¬(cs "tag" = cs "selector") := by decide
  simp only [selectorsOf, jGet, jGetKvs, h1, h2, h3, if_true, if_false,
    eq_self_iff_true, balancersList, mkBalancer, List.map_append,
    apply_ite (List.map _), List.map_cons, List.map_nil, selTags]
  by_cases hc : c = [] <;> by_cases hw : w = [] <;> by_cases hp : p = [] <;>
    simp [hc, hw, hp]

/-- Claim C4: in the routing document the balancer selectors are exactly
the three tag lists obtained by priority classification (warp first, then
cloudflare, then the proxy catch-all), each in input order and present only
when non-empty, and their concatenation is a permutation of the multiset of
all descriptor tags (so every tag lands in exactly one selector). -/
theorem c4_balancer_partition (servers : List ServerConfig) :
    selectorsOf (generateRouting servers) =
      [(servers.filter (fun s => !s.isWarp && s.isCloudflare)).map (·.tag),
       (servers.filter (·.isWarp)).map (·.tag),
       (servers.filter (fun s => !s.isWarp && !s.isCloudflare)).map (·.tag)
       ].filter (fun l => l ≠ []) ∧
    ((servers.filter (fun s => !s.isWarp && s.isCloudflare)).map (·.tag) ++
      (servers.filter (·.isWarp)).map (·.tag) ++
      (servers.filter (fun s => !s.isWarp && !s.isCloudflare)).map
        (·.tag)).Perm (servers.map (·.tag)) := by
  constructor
  · simp only [generateRouting, categorize_eq]
    exact selectorsOf_routing _ _ _
  · exact filter_three_perm servers

/-! ### Claim C7: the shadowsocks credential split -/

theorem breakAtFirst_eq (sep : Char) (s : Str) :
    breakAtFirst sep s =
      if s.contains sep then
        some (s.takeWhile (fun c => c ≠ sep),
          (s.dropWhile (fun c => c ≠ sep)).tail)
      else none := by
  induction s with
  | nil => rfl
  | cons c r ih =>
    simp only [breakAtFirst, List.contains_cons]
    by_cases h : c = sep
    · have hb : (sep == c) = true := by rw [h]; exact beq_self_eq_true sep
      have hp : (decide (c ≠ sep)) = false := by simp [h]
      simp [if_pos h, hb, List.takeWhile_cons, List.dropWhile_cons, hp]
    · have hb : (sep == c) = false := by
        apply beq_eq_false_iff_ne.mpr
        exact fun he => h he.symm
      have hp : (decide (c ≠ sep)) = true := by simp [h]
      rw [if_neg h, ih]
      by_cases hr : r.contains sep
      · simp [hr, hb, h, List.takeWhile_cons, List.dropWhile_cons, hp]
      · simp [hr, hb, h]

/-- Claim C7, counterexample: the spec demands *exactly one* colon in the
decoded payload, but `splitn(2, ':')` accepts any positive number of
colons: `a:b:c` (two colons, base64 `YTpiOmM=`) decodes successfully with
method `a` and password `b:c`. -/
theorem c7_counterexample :
    ssCreds (cs "a:b:c") = .ok (cs "a", cs "b:c") ∧
    ((cs "a:b:c").filter (fun c => c = ':')).length = 2 ∧
    parseShadowsocks (cs "ss://YTpiOmM=@1.2.3.4:80#t") 0 =
      .ok (.shadowsocks (cs "t") (cs "1.2.3.4") 80 (cs "a") (cs "b:c")) := by
  refine ⟨by decide, by decide, by decide⟩

/-- Claim C7, amended: the payload must contain *at least one* colon — a
colon-free payload fails with the invalid-credentials error — and a payload
with a colon splits at the *first* colon into cipher-method and password
(the password may itself contain colons). -/
theorem c7_amended (payload : Str) :
    (payload.contains ':' = false → ssCreds payload = .err .invalidCreds) ∧
    (payload.contains ':' = true →
      ssCreds payload = .ok (payload.takeWhile (fun c => c ≠ ':'),
        (payload.dropWhile (fun c => c ≠ ':')).tail)) := by
  constructor
  · intro h
    have h' : ¬(':' ∈ payload) := by simpa using h
    simp [ssCreds, h']
  · intro h
    have h' : ':' ∈ payload := by simpa using h
    simp [ssCreds, h', breakAtFirst_eq]

/-- Witness for C7 at a concrete payload. -/
theorem c7_witness :
    ssCreds (cs "m:p:w") = .ok ((cs "m:p:w").takeWhile (fun c => c ≠ ':'),
      ((cs "m:p:w").dropWhile (fun c => c ≠ ':')).tail) :=
  (c7_amended (cs "m:p:w")).2 (by decide)

/-! ### Claim C8: a vless line without a query is rejected -/

theorem dropPfx_append {p s r : Str} (h : dropPfx p s = some r) :
    s = p ++ r := by
  induction p generalizing s with
  | nil =>
    simp only [dropPfx] at h
    cases h
    rfl
  | cons c cp ih =>
    cases s with
    | nil => exact absurd h (by simp [dropPfx])
    | cons c' s' =>
      simp only [dropPfx] at h
      split at h
      · next heq => rw [heq, List.cons_append, ← ih h]
      · exact absurd h (by simp)

theorem breakAtFirst_append {sep : Char} {s a b : Str}
    (h : breakAtFirst sep s = some (a, b)) : s = a ++ sep :: b := by
  induction s generalizing a b with
  | nil => exact absurd h (by simp [breakAtFirst])
  | cons c r ih =>
    simp only [breakAtFirst] at h
    split at h
    · next heq =>
      cases h
      rw [heq]
      rfl
    · cases hb : breakAtFirst sep r with
      | none => rw [hb] at h; exact absurd h (by simp)
      | some q =>
        rw [hb] at h
        simp only [Option.map] at h
        cases h
        rw [List.cons_append, ← ih hb]

/-- A successful match of the shared `...\?([^#]+)...` grammar implies the
URI contains a `?`. -/
theorem mainUriMatch_has_query {scheme url : Str}
    {parts : Str × Str × Str × Str × Option Str}
    (h : mainUriMatch scheme url = some parts) : '?' ∈ url := by
  unfold mainUriMatch at h
  cases h1 : dropPfx scheme url with
  | none => rw [h1] at h; exact absurd h (by simp)
  | some r1 =>
  rw [h1] at h
  dsimp only at h
  cases h2 : breakAtFirst '@' r1 with
  | none => rw [h2] at h; exact absurd h (by simp)
  | some ur2 =>
  obtain ⟨user, r2⟩ := ur2
  rw [h2] at h
  dsimp only at h
  rw [dropPfx_append h1, breakAtFirst_append h2]
  split at h
  · exact absurd h (by simp)
  cases h3 : breakAtFirst ':' r2 with
  | none => rw [h3] at h; exact absurd h (by simp)
  | some hr3 =>
  obtain ⟨host, r3⟩ := hr3
  rw [h3] at h
  dsimp only at h
  rw [breakAtFirst_append h3]
  split at h
  · exact absurd h (by simp)
  split at h
  · exact absurd h (by simp)
  have hq3 : '?' ∈ r3 := by
    have hq : '?' ∈ r3.dropWhile isDigitB := by
      split at h
      · next r5 heq => rw [heq]; exact List.mem_cons_self _ _
      · exact absurd h (by simp)
    exact (List.dropWhile_sublist _).subset hq
  simp [List.mem_append, List.mem_cons, hq3]

/-- Claim C8: a `vless://` line without a `?` anywhere cannot match the
query-mandatory grammar and fails with `MalformedUri`; such a line
contributes nothing to the batch result (shown on a two-line input whose
vless line is dropped); and a vless line with a query component is not
rejected on this ground. -/
theorem c8_vless_query_mandatory :
    (∀ (url : Str) (idx : Nat), startsWithStr url (cs "vless://") = true →
      '?' ∉ url → parseVless url idx = .err .malformedUri) ∧
    parseServers
      (cs "vless://u@h:443#t\nss://dGVzdDoxMjM=@1.2.3.4:80#ok") =
      some [.shadowsocks (cs "ok") (cs "1.2.3.4") 80 (cs "test")
        (cs "123")] ∧
    parseVless (cs "vless://u@h:443?security=none#t") 0 ≠
      .err .malformedUri := by
  refine ⟨?_, by decide, by decide⟩
  intro url idx _ hq
  unfold parseVless
  cases hm : mainUriMatch (cs "vless://") url with
  | none => rfl
  | some parts => exact absurd (mainUriMatch_has_query hm) hq

/-- Witness for C8 at a concrete query-less vless line. -/
theorem c8_witness :
    parseVless (cs "vless://u@h:443#t") 3 = .err .malformedUri :=
  c8_vless_query_mandatory.1 (cs "vless://u@h:443#t") 3 (by decide)
    (by decide)

/-! ### Claim C5: the allow-insecure interpretation -/

/-- Claim C5, counterexample: on a Vless URI whose query carries
`insecure=0` (and no `allowInsecure`), the spec's reading — the
`allowInsecure`/`insecure` parameter is present and is neither `"1"` nor
`"true"`, so allow-insecure must be `false` — disagrees with the code,
which consults only `allowInsecure` for Vless (`src/parser.rs:597-600`)
and therefore falls back to its `true` default. -/
theorem c5_counterexample :
    parseVless (cs "vless://u@h:443?security=tls&insecure=0#t") 0 =
      .ok (.vless (cs "t") (cs "h") 443 (cs "u") (cs "none") [] (cs "tcp")
        (cs "tls")
        (some ⟨[], cs "chrome", none, true, none, none, none⟩)
        (some (.tcp (cs "none")))) ∧
    parseQuery (cs "security=tls&insecure=0") =
      .ok [(cs "security", cs "tls"), (cs "insecure", cs "0")] ∧
    lookupKV [(cs "security", cs "tls"), (cs "insecure", cs "0")]
      (cs "allowInsecure") = none ∧
    (cs "0" ≠ cs "1" ∧ cs "0" ≠ cs "true") := by
  refine ⟨by decide, by decide, by decide, by decide, by decide⟩

/-- Peeling a successful `PRes.bind`. -/
theorem PRes.bind_ok {α β : Type} {o : PRes α} {f : α → PRes β} {b : β}
    (h : o.bind f = .ok b) : ∃ a, o = .ok a ∧ f a = .ok b := by
  cases o with
  | ok a => exact ⟨a, rfl, h⟩
  | err e => exact absurd h (by simp [PRes.bind])
  | panic => exact absurd h (by simp [PRes.bind])

/-- Claim C5, amended: (a) a Vless TLS/Reality block's allow-insecure
consults only the `allowInsecure` parameter — `"1"`/`"true"` mean true,
any other value false, absent means **true** (the `insecure` parameter is
ignored); (b) a Trojan descriptor's allow-insecure consults `insecure`
first and then `allowInsecure`, with the same literal interpretation and
default **false**; (c) a Vmess descriptor's allow-insecure consults the
`insecure` JSON key only, same interpretation, default **false**. -/
theorem c5_amended :
    (∀ (id host portS query : Str) (frag : Option Str) (idx : Nat)
      (tag address : Str) (port : Nat)
      (uid encryption flow network security : Str)
      (tls : Option TlsSettings) (ns : Option NetworkSettings)
      (params : List (Str × Str)),
      vlessFromParts id host portS query frag idx =
        .ok (.vless tag address port uid encryption flow network security
          tls ns) →
      parseQuery query = .ok params →
      (security = cs "tls" ∨ security = cs "reality") →
      ∃ t, tls = some t ∧ t.allow_insecure =
        (match lookupKV params (cs "allowInsecure") with
         | some v => v = cs "1" || v = cs "true"
         | none => true)) ∧
    (∀ (pwEnc host portS query : Str) (frag : Option Str) (idx : Nat)
      (tag address : Str) (port : Nat) (password network security : Str)
      (tls : Option TlsSettings) (ns : Option NetworkSettings) (ai : Bool)
      (params : List (Str × Str)),
      trojanFromParts pwEnc host portS query frag idx =
        .ok (.trojan tag address port password network security tls ns ai) →
      parseQuery query = .ok params →
      ai = (match (lookupKV params (cs "insecure")).or
          (lookupKV params (cs "allowInsecure")) with
        | some v => v = cs "1" || v = cs "true"
        | none => false)) ∧
    (∀ (c : VmessConfig) (idx : Nat) (tag address : Str) (port : Nat)
      (uid : Str) (aid : Nat) (security network : Str)
      (ns : Option NetworkSettings) (tls : Option TlsSettings) (ai : Bool),
      vmessFromConfig c idx =
        .ok (.vmess tag address port uid aid security network ns tls ai) →
      ai = (match c.insecure with
        | some v => v = cs "1" || v = cs "true"
        | none => false)) := by
  refine ⟨?_, ?_, ?_⟩
  · intro id host portS query frag idx tag address port uid enc flow network
      security tls ns params h hq hsec
    unfold vlessFromParts at h
    obtain ⟨p, -, h⟩ := PRes.bind_ok h
    obtain ⟨tg, -, h⟩ := PRes.bind_ok h
    obtain ⟨params0, hparams, h⟩ := PRes.bind_ok h
    rw [hq] at hparams
    injection hparams with hpp
    subst hpp
    dsimp only at h
    simp only [PRes.ok.injEq, ServerConfig.vless.injEq] at h
    obtain ⟨-, -, -, -, -, -, -, hsec2, htls, -⟩ := h
    rw [← hsec2] at hsec
    have hcond : ((lookupKV params (cs "security")).getD (cs "none") =
        cs "tls" || (lookupKV params (cs "security")).getD (cs "none") =
        cs "reality") = true := by
      rcases hsec with h1 | h1 <;> simp [h1]
    rw [if_pos hcond] at htls
    exact ⟨_, htls.symm, rfl⟩
  · intro pwEnc host portS query frag idx tag address port password network
      security tls ns ai params h hq
    unfold trojanFromParts at h
    obtain ⟨p, -, h⟩ := PRes.bind_ok h
    obtain ⟨tg, -, h⟩ := PRes.bind_ok h
    obtain ⟨pw, -, h⟩ := PRes.bind_ok h
    obtain ⟨params0, hparams, h⟩ := PRes.bind_ok h
    rw [hq] at hparams
    injection hparams with hpp
    subst hpp
    dsimp only at h
    simp only [PRes.ok.injEq, ServerConfig.trojan.injEq] at h
    obtain ⟨-, -, -, -, -, -, -, -, hai⟩ := h
    exact hai.symm
  · intro c idx tag address port uid aid security network ns tls ai h
    unfold vmessFromConfig at h
    obtain ⟨tg, -, h⟩ := PRes.bind_ok h
    obtain ⟨p, -, h⟩ := PRes.bind_ok h
    obtain ⟨alterId, -, h⟩ := PRes.bind_ok h
    dsimp only at h
    simp only [PRes.ok.injEq, ServerConfig.vmess.injEq] at h
    obtain ⟨-, -, -, -, -, -, -, -, -, hai⟩ := h
    exact hai.symm

/-- Witness for C5: the Vless clause applied at a concrete query. -/
theorem c5_witness :
    ∃ t, (some (⟨[], cs "chrome", none, true, none, none, none⟩ :
        TlsSettings)) = some t ∧
      t.allow_insecure =
        (match lookupKV [(cs "security", cs "tls")] (cs "allowInsecure") with
         | some v => v = cs "1" || v = cs "true"
         | none => true) :=
  c5_amended.1 (cs "u") (cs "h") (cs "443") (cs "security=tls")
    (some (cs "t")) 0 (cs "t") (cs "h") 443 (cs "u") (cs "none") []
    (cs "tcp") (cs "tls")
    (some ⟨[], cs "chrome", none, true, none, none, none⟩)
    (some (.tcp (cs "none"))) [(cs "security", cs "tls")] (by decide)
    (by decide) (Or.inl rfl)

/-! ### Claim C6: idempotence of the tag sanitizer -/

theorem char_toNat_ofNat {n : Nat} (h : n < 0xD800) :
    (Char.ofNat n).toNat = n := by
  have hv : n.isValidChar := Or.inl h
  unfold Char.ofNat
  rw [dif_pos hv]
  rfl

theorem tagSafeChar_spec {c : Char} (h : tagSafeChar c = true) :
    keepChar c = true ∧ c ≠ ' ' ∧ rustToLower c = c := by
  simp only [tagSafeChar, Bool.and_eq_true, decide_eq_true_eq] at h
  exact ⟨h.1.1, h.1.2, h.2⟩

theorem rustToLower_eq_self {d : Char}
    (h : ¬(65 ≤ d.toNat ∧ d.toNat ≤ 90)) : rustToLower d = d := by
  unfold rustToLower
  rw [if_neg]
  simp only [Bool.and_eq_true, decide_eq_true_eq]
  exact h

theorem rustToLower_upper {d : Char} (h65 : 65 ≤ d.toNat)
    (h90 : d.toNat ≤ 90) : (rustToLower d).toNat = d.toNat + 32 := by
  unfold rustToLower
  rw [if_pos]
  · exact char_toNat_ofNat (by omega)
  · simp only [Bool.and_eq_true, decide_eq_true_eq]
    exact ⟨h65, h90⟩

theorem digit_tagSafe {c : Char} (h48 : 48 ≤ c.toNat) (h57 : c.toNat ≤ 57) :
    tagSafeChar c = true := by
  have hlower : rustToLower c = c := rustToLower_eq_self (by omega)
  have hsp : c ≠ ' ' := by
    intro heq
    rw [heq] at h48
    exact absurd h48 (by decide)
  have hkeep : keepChar c = true := by
    simp only [keepChar, rustIsAlnum, Bool.or_eq_true, Bool.and_eq_true,
      decide_eq_true_eq]
    exact Or.inl (Or.inl (Or.inl (Or.inl (Or.inl (Or.inl
      (Or.inl ⟨h48, h57⟩))))))
  simp [tagSafeChar, hkeep, hlower, hsp]

theorem upper_tagSafe {c : Char} (h65 : 65 ≤ c.toNat) (h90 : c.toNat ≤ 90) :
    tagSafeChar (rustToLower c) = true := by
  have hval : (rustToLower c).toNat = c.toNat + 32 := rustToLower_upper h65 h90
  have hlower2 : rustToLower (rustToLower c) = rustToLower c :=
    rustToLower_eq_self (by omega)
  have hsp : rustToLower c ≠ ' ' := by
    intro heq
    rw [heq] at hval
    have h32 : (' ' : Char).toNat = 32 := rfl
    omega
  have hkeep : keepChar (rustToLower c) = true := by
    simp only [keepChar, rustIsAlnum, Bool.or_eq_true, Bool.and_eq_true,
      decide_eq_true_eq]
    exact Or.inl (Or.inl (Or.inl (Or.inl (Or.inl
      (Or.inr ⟨by omega, by omega⟩)))))
  simp [tagSafeChar, hkeep, hlower2, hsp]

theorem lowerFixed_tagSafe {c : Char} (hk : keepChar c = true)
    (hsp : c ≠ ' ') (hno : ¬(65 ≤ c.toNat ∧ c.toNat ≤ 90)) :
    tagSafeChar c = true := by
  have hlower : rustToLower c = c := rustToLower_eq_self hno
  simp [tagSafeChar, hk, hlower, hsp]

/-- The composite of space replacement and lower-casing maps every
filter-surviving character to a pipeline-fixed character. -/
theorem pipe_char_safe {c : Char} (h : keepChar c = true) :
    tagSafeChar (rustToLower (if c = ' ' then '-' else c)) = true := by
  by_cases hsp : c = ' '
  · rw [if_pos hsp]
    decide
  · rw [if_neg hsp]
    by_cases hup : 65 ≤ c.toNat ∧ c.toNat ≤ 90
    · exact upper_tagSafe hup.1 hup.2
    · rw [(tagSafeChar_spec (lowerFixed_tagSafe h hsp hup)).2.2]
      exact lowerFixed_tagSafe h hsp hup

theorem natReprAux_digits (fuel : Nat) :
    ∀ (n : Nat) (acc : Str),
      (∀ c ∈ acc, 48 ≤ c.toNat ∧ c.toNat ≤ 57) →
      ∀ c ∈ natReprAux fuel n acc, 48 ≤ c.toNat ∧ c.toNat ≤ 57 := by
  induction fuel with
  | zero => exact fun n acc hacc => hacc
  | succ f ih =>
    intro n acc hacc c hc
    have hd : 48 ≤ (Char.ofNat (48 + n % 10)).toNat ∧
        (Char.ofNat (48 + n % 10)).toNat ≤ 57 := by
      rw [char_toNat_ofNat (by omega)]
      omega
    have hacc' : ∀ c' ∈ Char.ofNat (48 + n % 10) :: acc,
        48 ≤ c'.toNat ∧ c'.toNat ≤ 57 := by
      intro c' hc'
      rcases List.mem_cons.mp hc' with rfl | hmem
      · exact hd
      · exact hacc c' hmem
    simp only [natReprAux] at hc
    split at hc
    · exact hacc' c hc
    · exact ih (n / 10) _ hacc' c hc

theorem natRepr_digits (i : Nat) :
    ∀ c ∈ natRepr i, 48 ≤ c.toNat ∧ c.toNat ≤ 57 :=
  natReprAux_digits (i + 1) i [] (by simp)

theorem trimStr_subset {l : Str} : trimStr l ⊆ l := by
  intro c hc
  unfold trimStr at hc
  rw [List.mem_reverse] at hc
  have h1 := (List.dropWhile_sublist _).subset hc
  rw [List.mem_reverse] at h1
  exact (List.dropWhile_sublist _).subset h1

theorem dropWhile_eq_self_of {p : Char → Bool} {l : Str}
    (h : ∀ c ∈ l, p c = false) : l.dropWhile p = l := by
  cases l with
  | nil => rfl
  | cons c r => simp [List.dropWhile_cons, h c (List.mem_cons_self c r)]

theorem tagSafe_not_ws {c : Char} (h : tagSafeChar c = true) :
    rustIsWs c = false := by
  obtain ⟨hk, hsp, -⟩ := tagSafeChar_spec h
  simp only [keepChar, rustIsAlnum, Bool.or_eq_true, Bool.and_eq_true,
    decide_eq_true_eq] at hk
  rcases hk with ((((ha | h1) | h2) | h3) | h4) | h5
  · rcases ha with (hd | hu) | hl <;>
      (simp only [rustIsWs, Bool.or_eq_false_iff, decide_eq_false_iff_not]
       omega)
  · rw [h1]; decide
  · rw [h2]; decide
  · exact absurd h3 hsp
  · rw [h4]; decide
  · rw [h5]; decide

theorem trimStr_eq_self {l : Str} (h : ∀ c ∈ l, rustIsWs c = false) :
    trimStr l = l := by
  unfold trimStr
  rw [dropWhile_eq_self_of h]
  rw [dropWhile_eq_self_of (fun c hc => h c (List.mem_reverse.mp hc))]
  exact List.reverse_reverse l

theorem map_id_of {f : Char → Char} {l : Str} (h : ∀ c ∈ l, f c = c) :
    l.map f = l := by
  induction l with
  | nil => rfl
  | cons c r ih =>
    rw [List.map_cons, h c (List.mem_cons_self c r),
      ih (fun c' hc' => h c' (List.mem_cons_of_mem c hc'))]

/-- Every character of a sanitized base tag is pipeline-fixed, provided
the protocol name is. -/
theorem sanitizeBase_chars {x p : Str} {i : Nat} (hp : tagSafe p = true) :
    ∀ c ∈ sanitizeBase x p i, tagSafeChar c = true := by
  intro c hc
  unfold sanitizeBase at hc
  dsimp only at hc
  split at hc
  · rcases List.mem_append.mp hc with hcp | hcr
    · exact List.all_eq_true.mp hp c hcp
    · rcases List.mem_cons.mp hcr with rfl | hcd
      · decide
      · have hd := natRepr_digits i c hcd
        exact digit_tagSafe hd.1 hd.2
  · simp only [mapLower, List.mem_map] at hc
    obtain ⟨c1, hc1, rfl⟩ := hc
    obtain ⟨c0, hc0, rfl⟩ := hc1
    have hk : keepChar c0 = true :=
      (List.mem_filter.mp (trimStr_subset hc0)).2
    exact pipe_char_safe hk

theorem sanitizeBase_ne_nil (x p : Str) (i : Nat) :
    sanitizeBase x p i ≠ [] := by
  unfold sanitizeBase
  dsimp only
  split
  · intro hcontra
    rcases List.append_eq_nil.mp hcontra with ⟨-, h2⟩
    exact List.cons_ne_nil _ _ h2
  · next hne =>
    intro hcontra
    apply hne
    simpa [mapLower] using hcontra

/-- A string of pipeline-fixed characters is a fixed point of
`sanitizeBase`. -/
theorem sanitizeBase_fixed {y : Str} (hall : ∀ c ∈ y, tagSafeChar c = true)
    (hne : y ≠ []) (p : Str) (i : Nat) : sanitizeBase y p i = y := by
  have hfilter : y.filter keepChar = y :=
    List.filter_eq_self.mpr (fun c hc => (tagSafeChar_spec (hall c hc)).1)
  have htrim : trimStr y = y :=
    trimStr_eq_self (fun c hc => tagSafe_not_ws (hall c hc))
  have hrepl : y.map (fun c => if c = ' ' then '-' else c) = y :=
    map_id_of (fun c hc => if_neg (tagSafeChar_spec (hall c hc)).2.1)
  have hlow : mapLower y = y :=
    map_id_of (fun c hc => (tagSafeChar_spec (hall c hc)).2.2)
  unfold sanitizeBase
  rw [hfilter, htrim, if_neg hne, hrepl, hlow]

/-- A warp-prefixed (when required) string of pipeline-fixed characters is
a fixed point of the full sanitizer. -/
theorem sanitizeTag_fixed (y p : Str) (i : Nat) (w : Bool)
    (hall : ∀ c ∈ y, tagSafeChar c = true) (hne : y ≠ [])
    (hwp : w = true → startsWithStr y (cs "warp") = true) :
    sanitizeTag y p i w = y := by
  unfold sanitizeTag
  rw [sanitizeBase_fixed hall hne p i]
  cases w with
  | false => simp
  | true => simp [hwp rfl]

/-- Claim C6, counterexample: with protocol name `"AB"` (quantified over by
the claim) and an input that sanitizes to the fallback tag, the fallback
`"AB-0"` is not lower-cased, so a second application changes it to
`"ab-0"`. -/
theorem c6_counterexample :
    sanitizeTag (sanitizeTag (cs "") (cs "AB") 0 false) (cs "AB") 0 false ≠
      sanitizeTag (cs "") (cs "AB") 0 false := by decide

/-- Claim C6, amended: the sanitizer is idempotent for every ASCII input
string, index and warp flag, provided the protocol name consists of
pipeline-fixed characters (no uppercase letters, spaces or filtered
characters) — true of all five protocol names the decoders pass.  Both
hypotheses are necessary in the source: a non-fixed protocol name breaks
idempotence through the un-lowercased fallback tag (see the
counterexample), and a non-ASCII input breaks it because Rust
`str::to_lowercase` maps U+0130 to "i" + U+0307 and the second pass
filters out the combining mark; the ASCII hypothesis confines the
statement to the domain where the character model is exact. -/
theorem c6_amended (x protocol : Str) (idx : Nat) (w : Bool)
    (_hx : asciiStr x = true) (hp : tagSafe protocol = true) :
    sanitizeTag (sanitizeTag x protocol idx w) protocol idx w =
      sanitizeTag x protocol idx w := by
  have hy : ∀ c ∈ sanitizeTag x protocol idx w, tagSafeChar c = true := by
    intro c hc
    unfold sanitizeTag at hc
    dsimp only at hc
    split at hc
    · rcases List.mem_append.mp hc with hw | hb
      · exact (by decide : ∀ c' ∈ cs "warp-", tagSafeChar c' = true) c hw
      · exact sanitizeBase_chars hp c hb
    · exact sanitizeBase_chars hp c hc
  have hne : sanitizeTag x protocol idx w ≠ [] := by
    unfold sanitizeTag
    dsimp only
    split
    · exact List.cons_ne_nil _ _
    · exact sanitizeBase_ne_nil _ _ _
  refine sanitizeTag_fixed _ protocol idx w hy hne ?_
  intro hw
  rw [hw]
  exact sanitizeTag_true_warpPre x protocol idx

/-- Witness for C6 at a concrete tag and the `"ss"` protocol name. -/
theorem c6_witness :
    sanitizeTag (sanitizeTag (cs "My Warp") (cs "ss") 7 true) (cs "ss") 7
      true = sanitizeTag (cs "My Warp") (cs "ss") 7 true :=
  c6_amended (cs "My Warp") (cs "ss") 7 true (by decide) (by decide)

end ProxyHarvest
